import Mathlib

/-!
Verification development for the ResumeMatchAI scoring core
(`streamlit_app/utils/keywords_extraction.py` and
`streamlit_app/utils/ats_scoring.py`).

Python strings are modelled by `String`; Python floats by `ℚ`; Python dicts
that preserve insertion order by association lists `List (key × value)`.
The external NLP capabilities the core imports (the spaCy tokenizer and its
stop-word set, the NLTK Porter stemmer and difflib's `SequenceMatcher.ratio`)
are modelled as an explicit capability record `Ext`, following the spec's
treatment of the tokenizer as an external collaborator.  `str.lower` is
modelled on the ASCII range (all inputs considered here are ASCII).
-/

namespace ResumeMatchAI

/-- Python `str.lower` on one character, ASCII range. -/
def pyCharLower (c : Char) : Char :=
  if 65 ≤ c.toNat ∧ c.toNat ≤ 90 then Char.ofNat (c.toNat + 32) else c

/-- Python `str.lower` (ASCII model). -/
def pyLower (s : String) : String := ⟨s.data.map pyCharLower⟩

/-- Python's substring test `needle in hay` on char lists. -/
def infixChars (needle hay : List Char) : Bool :=
  hay.tails.any (fun t => needle.isPrefixOf t)

/-- Python's substring test `needle in hay` for strings. -/
def isSubstr (needle hay : String) : Bool :=
  infixChars needle.data hay.data

/-- Split a char list at every occurrence of a character, keeping empty
pieces: Python `str.split('\n')` semantics. -/
def splitCharList (c : Char) : List Char → List (List Char)
  | [] => [[]]
  | x :: xs =>
    match splitCharList c xs with
    | [] => if x = c then [[], []] else [[x]]
    | y :: ys => if x = c then [] :: y :: ys else (x :: y) :: ys

/-- Python `resume_text.split('\n')`. -/
def pySplitNl (s : String) : List String :=
  (splitCharList '\n' s.data).map (fun l => ⟨l⟩)

/-- Split a char list at every char satisfying `p`, keeping empty pieces. -/
def splitPred (p : Char → Bool) : List Char → List (List Char)
  | [] => [[]]
  | x :: xs =>
    match splitPred p xs with
    | [] => if p x then [[], []] else [[x]]
    | y :: ys => if p x then [] :: y :: ys else (x :: y) :: ys

/-- Python no-argument `str.split()`: split on whitespace runs, no empties. -/
def pyWords (s : String) : List String :=
  ((splitPred Char.isWhitespace s.data).filter (fun l => l ≠ [])).map (fun l => ⟨l⟩)

/-- Python `str.strip()` (ASCII whitespace). -/
def pyStrip (s : String) : String :=
  ⟨((s.data.dropWhile Char.isWhitespace).reverse.dropWhile Char.isWhitespace).reverse⟩

/-- Python `sep.join(parts)`. -/
def pyJoin (sep : String) : List String → String
  | [] => ""
  | [x] => x
  | x :: y :: ys => x ++ sep ++ pyJoin sep (y :: ys)

/-- Python `str.rstrip('e')`: drop every trailing `e`. -/
def pyRstripE (s : String) : String :=
  ⟨(s.data.reverse.dropWhile (fun c => c = 'e')).reverse⟩

/-- Python `str.startswith`. -/
def pyStartswith (pre s : String) : Bool := pre.data.isPrefixOf s.data

/-- Python `list(dict.fromkeys(..))`-like first-occurrence dedup, with an
accumulator of already seen elements (structural recursion so that it
evaluates by kernel reduction).  Models `list(set(xs))` / dict-key dedup: for
`set` Python's iteration order is unspecified, but every consumer in the
sources uses only membership and length, so first-occurrence order is an
admissible representative. -/
def dedupSeen {α : Type} [DecidableEq α] : List α → List α → List α
  | [], _ => []
  | x :: xs, seen => if x ∈ seen then dedupSeen xs seen else x :: dedupSeen xs (x :: seen)

/-- First-occurrence dedup. -/
def pyDedup {α : Type} [DecidableEq α] (l : List α) : List α := dedupSeen l []

/-- Stable insertion according to a strict "must stay before" test `r`:
`x` is placed in front of the first element `y` with `r y x = false`.
With `r y x = (key y < key x)` this is a stable ascending insertion,
with `r y x = (key x < key y)` a stable descending one. -/
def sInsert {α : Type} (r : α → α → Bool) (x : α) : List α → List α
  | [] => [x]
  | y :: ys => if r y x then y :: sInsert r x ys else x :: y :: ys

/-- Stable insertion sort: the unique stable sort, hence it agrees with
Python's (stable) `list.sort` for the same comparison key. -/
def stableSortBy {α : Type} (r : α → α → Bool) : List α → List α
  | [] => []
  | x :: xs => sInsert r x (stableSortBy r xs)

/-- Strict lexicographic order on char lists by code point: Python `<` on
strings. -/
def lexLtChars : List Char → List Char → Bool
  | [], [] => false
  | [], _ :: _ => true
  | _ :: _, [] => false
  | x :: xs, y :: ys =>
    if x.toNat < y.toNat then true
    else if y.toNat < x.toNat then false
    else lexLtChars xs ys

/-- Python `<` on strings. -/
def strLt (a b : String) : Bool := lexLtChars a.data b.data

/-- Python `sorted(list(set(xs)))` for strings. -/
def pySortedSet (l : List String) : List String :=
  stableSortBy (fun a b => strLt a b) (pyDedup l)

/-- Python `round(x, 1)` (round half to even), on the exact rational value. -/
def pyRound1 (q : ℚ) : ℚ :=
  let n : ℤ := ⌊q * 10⌋
  let frac : ℚ := q * 10 - n
  if frac < 1/2 then n / 10
  else if 1/2 < frac then (n + 1) / 10
  else if Even n then n / 10 else (n + 1) / 10

/-- Python non-overlapping `str.count` scan for a non-empty needle: after a
hit, `skip = len(needle) - 1` further characters are consumed before
matching resumes. -/
def countAux (needle : List Char) (skip : Nat) : List Char → Nat
  | [] => 0
  | x :: xs =>
    match skip with
    | k + 1 => countAux needle k xs
    | 0 =>
      if needle.isPrefixOf (x :: xs) then 1 + countAux needle (needle.length - 1) xs
      else countAux needle 0 xs

/-- Python `hay.count(needle)`: non-overlapping occurrences; an empty needle
counts `len(hay) + 1`. -/
def pyCount (needle hay : String) : Nat :=
  if needle.data = [] then hay.data.length + 1
  else countAux needle.data 0 hay.data

/-! ## The external NLP capabilities (spaCy, NLTK, difflib)

`keywords_extraction.py` imports the spaCy pipeline `nlp`, spaCy's
`STOP_WORDS`, NLTK's `PorterStemmer` (`ps.stem`) and difflib's
`SequenceMatcher(None, a, b).ratio()`.  They are external libraries, not
code of this repository, so they enter the embedding as an abstract
capability record; every theorem below holds for an arbitrary record. -/

/-- A spaCy token: surface text, lemma, coarse POS tag, `is_alpha` flag
(spaCy attribute names `text`, `lemma_`, `pos_`, `is_alpha`). -/
structure Token where
  text : String
  lemma_ : String
  pos_ : String
  is_alpha : Bool

/-- The external capabilities: `nlp` tokenization, Porter stemming,
`SequenceMatcher.ratio`, and the stop-word set. -/
structure Ext where
  nlp : String → List Token
  stem : String → String
  seqSim : String → String → ℚ
  stop_words : String → Bool

/-! ## keywords_extraction.py -/

/-- The fixed "very common lemma" blocklist of `get_keywords`
(`keywords_extraction.py` line 106), copied verbatim. -/
def lowInfoLemmas : List String := ["be", "have", "do", "make", "get", "go", "know", "take", "see", "come", "want", "use", "find", "give", "tell", "work", "call", "try", "ask", "need", "feel", "become", "leave", "put", "mean", "keep", "let", "begin", "seem", "help", "talk", "turn", "start", "might", "show", "hear", "play", "run", "move", "like", "live", "believe", "bring", "happen", "write", "provide", "sit", "stand", "lose", "pay", "meet", "include", "continue", "set", "learn", "change", "lead", "understand", "watch", "follow", "stop", "create", "speak", "read", "allow", "add", "spend", "grow", "open", "walk", "win", "offer", "remember", "love", "consider", "appear", "buy", "wait", "serve", "die", "send", "expect", "build", "stay", "fall", "cut", "reach", "kill", "remain", "suggest", "raise", "pass", "sell", "require", "report", "decide", "pull"]

/-- The per-token filter of `get_keywords`'s loop: `none` models `continue`,
`some lemma` models `processed_tokens.append(lemma)`. -/
def tokenKeep (ext : Ext) (min_len : Nat) (with_nouns with_stopwords : Bool)
    (token : Token) : Option String :=
  if with_nouns ∧ token.pos_ ∉ ["NOUN", "PROPN", "VERB"] then none
  else if ¬ token.is_alpha then none
  else
    let word := pyLower token.text
    if word.length < min_len then none
    else if ¬ with_stopwords ∧ ext.stop_words word then none
    else
      let lem := pyLower token.lemma_
      if lem ∈ lowInfoLemmas then none
      else some lem

/-- `get_keywords(text, min_len=2, with_nouns=True, with_stopwords=False)`:
keyword extraction (`keywords_extraction.py` lines 74-113). -/
def get_keywords (ext : Ext) (text : String) (min_len : Nat := 2)
    (with_nouns : Bool := true) (with_stopwords : Bool := false) : List String :=
  if text = "" ∨ pyStrip text = "" then []
  else pySortedSet ((ext.nlp text).filterMap (tokenKeep ext min_len with_nouns with_stopwords))

/-- `calculate_keyword_similarity(keyword1, keyword2)`
(`keywords_extraction.py` lines 148-192). -/
def calculate_keyword_similarity (ext : Ext) (keyword1 keyword2 : String) : ℚ :=
  if keyword1 = "" ∨ keyword2 = "" then 0
  else
    let k1 := pyStrip (pyLower keyword1)
    let k2 := pyStrip (pyLower keyword2)
    if k1 = k2 then 1
    else if ext.stem k1 = ext.stem k2 then 0.9
    else
      let seq_similarity := ext.seqSim k1 k2
      if 0.85 < seq_similarity then seq_similarity * 0.8
      else
        let words1 := pyDedup (pyWords k1)
        let words2 := pyDedup (pyWords k2)
        let common := words1.filter (fun w => w ∈ words2)
        if common ≠ [] then
          ((common.length : ℚ) / (max words1.length words2.length : Nat)) * 0.7
        else if k1.length ≤ 5 ∧ pyStartswith k1 k2 then 0.6
        else if k2.length ≤ 5 ∧ pyStartswith k2 k1 then 0.6
        else if isSubstr k1 k2 ∨ isSubstr k2 k1 then
          if (max k1.length k2.length) - (min k1.length k2.length) ≤ 4 then 0.5 else 0
        else 0

/-- The inner loop of `find_similar_keywords` for one job keyword: the
`(resume_kw, similarity)` pairs at or above the threshold, in
`resume_keywords` order. -/
def similarCandidates (ext : Ext) (job_kw : String) (resume_keywords : List String)
    (similarity_threshold : ℚ) : List (String × ℚ) :=
  resume_keywords.filterMap (fun resume_kw =>
    let similarity := calculate_keyword_similarity ext job_kw resume_kw
    if similarity_threshold ≤ similarity then some (resume_kw, similarity) else none)

/-- One job keyword's dict entry in `find_similar_keywords`: sort the
candidates descending by similarity (Python's `sort(key=.., reverse=True)`
is stable) and keep the top 3; no entry if there was no candidate. -/
def similarEntry (ext : Ext) (resume_keywords : List String) (similarity_threshold : ℚ)
    (job_kw : String) : Option (String × List String) :=
  let similar_resume_kws := similarCandidates ext job_kw resume_keywords similarity_threshold
  let sorted := stableSortBy (fun y x => x.2 < y.2) similar_resume_kws
  match sorted with
  | [] => none
  | _ :: _ => some (job_kw, (sorted.take 3).map (fun p => p.1))

/-- `find_similar_keywords(job_keywords, resume_keywords, threshold=0.7)`
(`keywords_extraction.py` lines 194-214).  The Python dict is modelled as an
association list in key-insertion order; duplicate job keywords are folded
away up front because a re-assignment writes an identical value at the
first-insertion position. -/
def find_similar_keywords (ext : Ext) (job_keywords resume_keywords : List String)
    (similarity_threshold : ℚ := 0.7) : List (String × List String) :=
  (pyDedup job_keywords).filterMap (similarEntry ext resume_keywords similarity_threshold)

/-- Category table `technical_skills` of `categorize_keywords`, verbatim. -/
def technical_skillsTable : List String := ["python", "java", "javascript", "typescript", "c++", "c#", "php", "ruby", "go", "rust", "algorithm", "data structure", "api", "database", "sql", "nosql", "mongodb", "postgresql", "machine learning", "deep learning", "neural network", "artificial intelligence", "ai", "computer vision", "nlp", "natural language processing", "data science", "analytics"]

/-- Category table `tools_technologies`, verbatim. -/
def tools_technologiesTable : List String := ["docker", "kubernetes", "aws", "azure", "gcp", "git", "jenkins", "ci/cd", "agile", "scrum", "linux", "windows", "react", "angular", "vue", "node", "django", "flask", "spring", "tensorflow", "pytorch", "pandas", "numpy", "scikit-learn", "jupyter"]

/-- Category table `soft_skills`, verbatim. -/
def soft_skillsTable : List String := ["communication", "leadership", "teamwork", "problem solving", "critical thinking", "time management", "adaptability", "creativity", "collaboration", "empathy", "project management", "decision making", "conflict resolution", "mentoring"]

/-- Category table `education_terms`, verbatim. -/
def education_termsTable : List String := ["bachelor", "master", "phd", "degree", "university", "college", "graduate", "undergraduate", "diploma", "certificate", "education", "qualification"]

/-- Category table `certifications`, verbatim. -/
def certificationsTable : List String := ["cpa", "cfa", "pmp", "aws certified", "azure", "gcp", "cissp", "ceh", "comptia", "ccna", "ccnp", "mcsa", "mcse", "oracle", "red hat", "itil"]

/-- Category table `languages`, verbatim. -/
def languagesTable : List String := ["english", "french", "spanish", "german", "italian", "portuguese", "chinese", "mandarin", "japanese", "korean", "arabic", "hindi"]

/-- The first-match-wins `if/elif` chain of `categorize_keywords` for a
single keyword (`keywords_extraction.py` lines 266-282). -/
def classifyKeyword (keyword : String) : String :=
  let kw_lower := pyLower keyword
  if technical_skillsTable.any (fun s => isSubstr s kw_lower) then "technical_skills"
  else if tools_technologiesTable.any (fun s => isSubstr s kw_lower) then "tools_technologies"
  else if soft_skillsTable.any (fun s => isSubstr s kw_lower) then "soft_skills"
  else if education_termsTable.any (fun s => isSubstr s kw_lower) then "education_terms"
  else if certificationsTable.any (fun s => isSubstr s kw_lower) then "certifications"
  else if languagesTable.any (fun s => isSubstr s kw_lower) then "languages"
  else "other"

/-- The `categories` dict keys of `categorize_keywords`, in insertion order
(`industry_terms` exists but no rule ever assigns to it, as in the source). -/
def categoryNames : List String := ["technical_skills", "soft_skills", "tools_technologies", "industry_terms", "education_terms", "certifications", "languages", "other"]

/-- `categorize_keywords(keywords)` (`keywords_extraction.py` lines 216-284):
each keyword lands in the bucket of its first matching rule, buckets keep the
keywords' order. -/
def categorize_keywords (keywords : List String) : List (String × List String) :=
  categoryNames.map (fun c => (c, keywords.filter (fun kw => classifyKeyword kw = c)))

/-- The `match_details` sub-dict of `enhanced_keyword_match_score`. -/
structure MatchDetails where
  exact_count : Nat
  similar_count : Nat
deriving DecidableEq

/-- One value of the `categorized_matches` dict. -/
structure CatEntry where
  score : ℚ
  exact_matches : List String
  similar_matches : List (String × List String)
  total_keywords : Nat
deriving DecidableEq

/-- The result dict of `enhanced_keyword_match_score`.  The early return for
an empty job-keyword list builds a dict WITHOUT the `categorized_matches` and
`keyword_analysis` keys; key absence is modelled by `Option` being `none`. -/
structure MatchResult where
  score : ℚ
  exact_matches : List String
  similar_matches : List (String × List String)
  total_job_keywords : Nat
  matched_job_keywords : Nat
  match_details : MatchDetails
  categorized_matches : Option (List (String × CatEntry))
  keyword_analysis : Option ((List (String × List String)) × (List (String × List String)))

/-- The fixed morphological-variant list of `enhanced_keyword_match_score`
(lines 329-338): base, +s, +es, +ing, +ed, gerund-without-trailing-e, +er,
+est. -/
def keywordVariations (keyword_lower : String) : List String :=
  [keyword_lower, keyword_lower ++ "s", keyword_lower ++ "es", keyword_lower ++ "ing",
   keyword_lower ++ "ed", pyRstripE keyword_lower ++ "ing", keyword_lower ++ "er",
   keyword_lower ++ "est"]

/-- The per-keyword exact-match test of `enhanced_keyword_match_score`'s loop
(lines 320-341): verbatim substring, else any variant substring. -/
def isExactMatch (keyword resume_text_lower : String) : Bool :=
  let keyword_lower := pyLower keyword
  if isSubstr keyword_lower resume_text_lower then true
  else (keywordVariations keyword_lower).any (fun v => isSubstr v resume_text_lower)

/-- The combined score formula of `enhanced_keyword_match_score`
(lines 352-365): `total_score = (len(exact) + (0.8·Σ|matches| if any)) /
len(job_keywords)`, capped at 1. -/
def matchTotalScore (exact_count total_similar_weight n : ℕ) : ℚ :=
  let similar_score : ℚ := (total_similar_weight : ℚ) * 0.8
  let total_score0 : ℚ :=
    ((exact_count : ℚ) + (if 0 < total_similar_weight then similar_score else 0)) / (n : ℚ)
  min total_score0 1

/-- `enhanced_keyword_match_score(job_keywords, resume_text, use_similarity=True)`
(`keywords_extraction.py` lines 298-402). -/
def enhanced_keyword_match_score (ext : Ext) (job_keywords : List String)
    (resume_text : String) (use_similarity : Bool := true) : MatchResult :=
  if job_keywords = [] then
    { score := 0, exact_matches := [], similar_matches := [], total_job_keywords := 0,
      matched_job_keywords := 0, match_details := ⟨0, 0⟩,
      categorized_matches := none, keyword_analysis := none }
  else
    let resume_keywords := get_keywords ext resume_text
    let resume_text_lower := pyLower resume_text
    let exact_matches := pyDedup (job_keywords.filter (fun kw => isExactMatch kw resume_text_lower))
    let similar_matches :=
      if use_similarity then find_similar_keywords ext job_keywords resume_keywords else []
    let similar_unmatched := similar_matches.filter (fun p => p.1 ∉ exact_matches)
    let total_similar_weight : Nat := (similar_unmatched.map (fun p => p.2.length)).sum
    let total_score := matchTotalScore exact_matches.length total_similar_weight job_keywords.length
    let job_categories := categorize_keywords job_keywords
    let resume_categories := categorize_keywords resume_keywords
    let categorized_matches := job_categories.filterMap (fun cat =>
      let job_cat_keywords := cat.2
      if job_cat_keywords = [] then none
      else
        let exact_cat := job_cat_keywords.filter (fun kw => kw ∈ exact_matches)
        let similar_cat := similar_matches.filter (fun p => p.1 ∈ job_cat_keywords)
        if exact_cat = [] ∧ similar_cat = [] then none
        else
          let cat_score : ℚ :=
            ((exact_cat.length : ℚ) + ((similar_cat.map (fun p => p.2.length)).sum : ℚ) * 0.8)
              / (job_cat_keywords.length : ℚ)
          some (cat.1,
            { score := min (cat_score * 100) 100, exact_matches := exact_cat,
              similar_matches := similar_cat, total_keywords := job_cat_keywords.length }))
    { score := total_score * 100,
      exact_matches := exact_matches,
      similar_matches := similar_matches,
      total_job_keywords := job_keywords.length,
      matched_job_keywords := exact_matches.length + similar_matches.length,
      match_details := ⟨exact_matches.length, similar_matches.length⟩,
      categorized_matches := some categorized_matches,
      keyword_analysis := some (job_categories, resume_categories) }

/-! ## ats_scoring.py — the `ATSScorer` class

The class holds no mutable state (its `stemmer` field is never used by the
methods embedded here), so its methods are embedded as plain functions.  The
`_`-prefix of the private method names is dropped (Lean reserves leading
underscores). -/

/-- `ATSScorer.SECTION_KEYWORDS`, verbatim, in dict insertion order. -/
def SECTION_KEYWORDS : List (String × List String) :=
  [("experience", ["experience", "work experience", "professional experience", "employment", "work history", "career history", "professional background"]),
   ("education", ["education", "academic background", "qualifications", "degrees", "certifications", "academic credentials"]),
   ("skills", ["skills", "technical skills", "core competencies", "expertise", "proficiencies", "abilities", "competencies"]),
   ("summary", ["summary", "professional summary", "objective", "profile", "career objective", "personal statement"])]

/-- `all_section_keywords` as `_extract_section_text` builds it: every header
synonym of every section type, concatenated in table order. -/
def allSectionKeywords : List String := (SECTION_KEYWORDS.map (fun p => p.2)).flatten

/-- The line scan of `_extract_section_text` (lines 283-299).  State: the
remaining lines, the `in_section` flag, the accumulated `section_text`.
Returning `acc` at a boundary line models `break`. -/
def extractLoop (section_keywords all_keywords : List String) :
    List String → Bool → List String → List String
  | [], _, acc => acc
  | line :: rest, in_section, acc =>
    let line_lower := pyStrip (pyLower line)
    if section_keywords.any (fun kw => isSubstr kw line_lower) then
      extractLoop section_keywords all_keywords rest true acc
    else if in_section ∧ pyStrip line ≠ "" then
      if all_keywords.any (fun kw => isSubstr kw line_lower) then acc
      else extractLoop section_keywords all_keywords rest in_section (acc ++ [line])
    else extractLoop section_keywords all_keywords rest in_section acc

/-- `ATSScorer._extract_section_text(resume_text, section_type)`
(`ats_scoring.py` lines 275-301). -/
def extract_section_text (resume_text section_type : String) : String :=
  let lines := pySplitNl resume_text
  let section_keywords := (List.lookup section_type SECTION_KEYWORDS).getD []
  pyJoin " " (extractLoop section_keywords allSectionKeywords lines false [])

/-- `ATSScorer._calculate_keyword_match_score` (lines 110-123). -/
def calculate_keyword_match_score (ext : Ext) (resume_text : String)
    (job_keywords : List String) : ℚ :=
  if job_keywords = [] ∨ resume_text = "" then 0
  else
    let match_percentage := (enhanced_keyword_match_score ext job_keywords resume_text true).score
    let match_percentage :=
      if 80 < match_percentage then 80 + (match_percentage - 80) * 0.5 else match_percentage
    min match_percentage 100

/-- `ATSScorer._calculate_keyword_density_score` (lines 125-154). -/
def calculate_keyword_density_score (resume_text : String) (job_keywords : List String) : ℚ :=
  if job_keywords = [] ∨ resume_text = "" then 0
  else
    let total_words := (pyWords resume_text).length
    if total_words = 0 then 0
    else
      let resume_lower := pyLower resume_text
      let keyword_count := (job_keywords.map (fun k => pyCount (pyLower k) resume_lower)).sum
      let density : ℚ := ((keyword_count : ℚ) / (total_words : ℚ)) * 100
      if 3 ≤ density ∧ density ≤ 8 then 100
      else if density < 3 then (density / 3) * 100
      else max 0 (100 - (density - 8) * 10)

/-- The `personal_info` dict: the five probed fields; a missing key or a
falsy (empty) value both behave like "absent", captured by `truthy`. -/
structure PersonalInfo where
  name : Option String
  email : Option String
  phone_number : Option String
  province : Option String
  major_city : Option String

/-- Python truthiness of `personal_info.get(field)`. -/
def truthy : Option String → Bool
  | none => false
  | some s => s ≠ ""

/-- `ATSScorer._calculate_personal_info_score` (lines 156-182). -/
def calculate_personal_info_score (personal_info : PersonalInfo) : ℚ :=
  let required_score : ℚ :=
    (if truthy personal_info.name then 20 else 0) +
    (if truthy personal_info.email then 20 else 0) +
    (if truthy personal_info.phone_number then 20 else 0)
  let optional_score : ℚ :=
    (if truthy personal_info.province then 20 else 0) +
    (if truthy personal_info.major_city then 20 else 0)
  let total_score := required_score + optional_score
  let total_score :=
    if required_score = 60 ∧ optional_score = 40 then total_score + 10 else total_score
  min total_score 100

/-- `ATSScorer._calculate_skills_alignment_score` (lines 184-202). -/
def calculate_skills_alignment_score (resume_text : String) (job_keywords : List String) : ℚ :=
  let skills_section := extract_section_text resume_text "skills"
  if skills_section = "" then 30
  else
    let skills_lower := pyLower skills_section
    let matched_skills :=
      (job_keywords.filter (fun kw => isSubstr (pyLower kw) skills_lower)).length
    if matched_skills = 0 then 20
    else if matched_skills ≤ 3 then 60
    else if matched_skills ≤ 6 then 80
    else 95

/-- The substring terms that make a job keyword "relevant" to the experience
section (line 213). -/
def experienceTerms : List String := ["experience", "year", "skill", "project", "team"]

/-- `ATSScorer._calculate_experience_match_score` (lines 204-221). -/
def calculate_experience_match_score (resume_text : String) (job_keywords : List String) : ℚ :=
  let experience_section := extract_section_text resume_text "experience"
  if experience_section = "" then 40
  else
    let exp_lower := pyLower experience_section
    let relevant_keywords :=
      job_keywords.filter (fun k => experienceTerms.any (fun term => isSubstr term (pyLower k)))
    let matched_exp := (relevant_keywords.filter (fun kw => isSubstr (pyLower kw) exp_lower)).length
    if relevant_keywords.length = 0 then 70
    else min (((matched_exp : ℚ) / (relevant_keywords.length : ℚ)) * 100) 100

/-- The substring terms of `_calculate_education_match_score` (line 231). -/
def educationTerms : List String := ["degree", "education", "university", "college", "graduate"]

/-- `ATSScorer._calculate_education_match_score` (lines 223-240). -/
def calculate_education_match_score (resume_text : String) (job_keywords : List String) : ℚ :=
  let education_section := extract_section_text resume_text "education"
  if education_section = "" then 50
  else
    let edu_keywords :=
      job_keywords.filter (fun k => educationTerms.any (fun term => isSubstr term (pyLower k)))
    if edu_keywords = [] then 75
    else
      let edu_lower := pyLower education_section
      let matched_edu := (edu_keywords.filter (fun kw => isSubstr (pyLower kw) edu_lower)).length
      min (((matched_edu : ℚ) / (edu_keywords.length : ℚ)) * 100) 100

/-- The `bullet_indicators` list (line 259), verbatim (the source file's
literal bytes). -/
def bulletIndicators : List String := ["â€¢", "-", "*", "Â·"]

/-- `ATSScorer._calculate_formatting_score` (lines 242-273). -/
def calculate_formatting_score (resume_text : String) : ℚ :=
  let sections_found :=
    (SECTION_KEYWORDS.filter (fun p => p.2.any (fun kw => isSubstr kw (pyLower resume_text)))).length
  let score : ℚ := 100
  let score := if 4 ≤ sections_found then score + 10
    else if 2 ≤ sections_found then score + 5 else score
  let has_bullets := bulletIndicators.any (fun ind => isSubstr ind resume_text)
  let score := if has_bullets then score + 5 else score
  let word_count := (pyWords resume_text).length
  let score := if word_count < 100 then score - 20
    else if 800 < word_count then score - 10
    else if 300 ≤ word_count ∧ word_count ≤ 600 then score + 5
    else score
  max 0 (min score 100)

/-- The seven component scores (`scores` dict), in insertion order. -/
structure ComponentScores where
  keyword_match : ℚ
  keyword_density : ℚ
  personal_info : ℚ
  skills_alignment : ℚ
  experience_match : ℚ
  education_match : ℚ
  formatting : ℚ

/-- `sum(scores[component] * WEIGHTS[component] for component in scores)`
with `ATSScorer.WEIGHTS` = {keyword_match 0.40, keyword_density 0.15,
personal_info 0.15, skills_alignment 0.10, experience_match 0.10,
education_match 0.05, formatting 0.05}. -/
def weightedSum (s : ComponentScores) : ℚ :=
  s.keyword_match * 0.40 + s.keyword_density * 0.15 + s.personal_info * 0.15 +
  s.skills_alignment * 0.10 + s.experience_match * 0.10 + s.education_match * 0.05 +
  s.formatting * 0.05

/-! The recommendation strings of `_generate_recommendations`, verbatim (the
source file stores the emoji prefixes as the mojibake bytes reproduced
here; only their equality/inequality and their text before the first `:`
matter). -/

/-- Critical contact-info recommendation. -/
def recCritContact : String := "ðŸš¨ CRITICAL: Add complete contact information (name, email, phone) at the top of your resume"

/-- Critical missing-keywords recommendation, the part before the f-string
interpolation. -/
def recCritKeywordsPre : String := "ðŸš¨ CRITICAL: Incorporate these key skills naturally: "

/-- High missing-keywords recommendation, the part before the interpolation. -/
def recHighKeywordsPre : String := "ðŸ“ˆ HIGH: Add these missing keywords: "

/-- High recommendation for low keyword density. -/
def recHighDensityLow : String := "ðŸ“ˆ HIGH: Increase relevant keyword usage - aim for 3-8 job-related terms per 100 words"

/-- High recommendation for excessive keyword density. -/
def recHighDensityHigh : String := "ðŸ“ˆ HIGH: Reduce keyword repetition - ATS may flag over-optimization"

/-- Medium recommendation for the skills section. -/
def recMedSkills : String := "ðŸ”§ MEDIUM: Create or enhance skills section with job-specific technologies and tools"

/-- Medium recommendation for the experience section. -/
def recMedExperience : String := "ðŸ”§ MEDIUM: Quantify achievements and use action verbs in experience section"

/-- Medium recommendation for location info. -/
def recMedLocation : String := "ðŸ”§ MEDIUM: Add location information to improve geographical matching"

/-- Low recommendation for formatting (the one claim C8 is about). -/
def recLowFormatting : String := "ðŸ’¡ LOW: Use standard section headers (Experience, Skills, Education) and bullet points"

/-- Low recommendation for the education section. -/
def recLowEducation : String := "ðŸ’¡ LOW: Ensure education section includes relevant degrees and certifications"

/-- Overall-bracket message for overall score below 40. -/
def recOverallCritical : String := "ðŸš¨ OVERALL: Major resume revision needed - consider professional resume writing services"

/-- Overall-bracket message for overall score in [40, 60). -/
def recOverallSignificant : String := "ðŸ“Š OVERALL: Significant improvements needed - focus on keywords and personal info"

/-- Overall-bracket message for overall score in [60, 75). -/
def recOverallGood : String := "ðŸ“Š OVERALL: Good foundation - focus on fine-tuning keyword usage and formatting"

/-- Overall-bracket message for overall score in [75, 85). -/
def recOverallVeryGood : String := "âœ¨ OVERALL: Very good - minor optimizations can achieve excellence"

/-- Overall-bracket message for overall score at or above 85. -/
def recOverallExcellent : String := "ðŸŽ‰ OVERALL: Excellent ATS optimization! Your resume should perform well"

/-- The `priority_order` dict of `_generate_recommendations` (line 461). -/
def priorityOrder : List (String × Nat) :=
  [("ðŸš¨ CRITICAL", 0), ("ðŸš¨ OVERALL", 1), ("ðŸ“ˆ HIGH", 2), ("ðŸ”§ MEDIUM", 3),
   ("ðŸ’¡ LOW", 4), ("ðŸ“Š OVERALL", 5), ("âœ¨ OVERALL", 6), ("ðŸŽ‰ OVERALL", 7)]

/-- Python `x.split(':')[0]`: the text before the first colon. -/
def beforeColon (s : String) : String := ⟨s.data.takeWhile (fun c => c ≠ ':')⟩

/-- The sort key `priority_order.get(x.split(':')[0], 99)`. -/
def recPriorityKey (s : String) : Nat := (List.lookup (beforeColon s) priorityOrder).getD 99

/-- The sequence of `recommendations.append(..)` calls of
`_generate_recommendations` (lines 405-458), in program order. -/
def genRecommendations (scores : ComponentScores) (resume_text : String)
    (job_keywords : List String) : List String :=
  let overall_score := weightedSum scores
  let resume_lower := pyLower resume_text
  (if scores.personal_info < 60 then [recCritContact] else [])
  ++ (if scores.keyword_match < 40 then
        let missing_keywords :=
          (job_keywords.take 8).filter (fun k => ! isSubstr (pyLower k) resume_lower)
        if missing_keywords ≠ [] then
          [recCritKeywordsPre ++ pyJoin ", " (missing_keywords.take 4)]
        else []
      else [])
  ++ (if scores.keyword_match < 60 then
        let missing_keywords :=
          (job_keywords.filter (fun k => ! isSubstr (pyLower k) resume_lower)).take 6
        if missing_keywords ≠ [] then
          [recHighKeywordsPre ++ pyJoin ", " (missing_keywords.take 3)]
        else []
      else [])
  ++ (if scores.keyword_density < 40 then [recHighDensityLow] else [])
  ++ (if 95 < scores.keyword_density then [recHighDensityHigh] else [])
  ++ (if scores.skills_alignment < 60 then [recMedSkills] else [])
  ++ (if scores.experience_match < 60 then [recMedExperience] else [])
  ++ (if scores.personal_info < 80 ∧ 60 ≤ scores.personal_info then [recMedLocation] else [])
  ++ (if scores.formatting < 70 then [recLowFormatting] else [])
  ++ (if scores.education_match < 70 then [recLowEducation] else [])
  ++ (if overall_score < 40 then [recOverallCritical]
      else if overall_score < 60 then [recOverallSignificant]
      else if overall_score < 75 then [recOverallGood]
      else if overall_score < 85 then [recOverallVeryGood]
      else [recOverallExcellent])

/-- `ATSScorer._generate_recommendations` (lines 405-465): generate, stable
sort ascending by priority key, keep the first 7. -/
def generate_recommendations (scores : ComponentScores) (resume_text : String)
    (job_keywords : List String) : List String :=
  (stableSortBy (fun y x => recPriorityKey y < recPriorityKey x)
    (genRecommendations scores resume_text job_keywords)).take 7

/-- `ATSScorer._get_grade_letter` (lines 467-478). -/
def get_grade_letter (score : ℚ) : String :=
  if 90 ≤ score then "A"
  else if 80 ≤ score then "B"
  else if 70 ≤ score then "C"
  else if 60 ≤ score then "D"
  else "F"

/-- `ATSScorer._get_compatibility_level` (lines 480-497). -/
def get_compatibility_level (score : ℚ) : String :=
  if 90 ≤ score then "Exceptional - 95%+ chance of passing ATS filters"
  else if 85 ≤ score then "Excellent - 85%+ chance of passing most ATS systems"
  else if 75 ≤ score then "Very Good - 75%+ chance, strong candidate"
  else if 65 ≤ score then "Good - 65%+ chance, likely to pass standard filters"
  else if 55 ≤ score then "Fair - 55%+ chance, may pass some systems"
  else if 45 ≤ score then "Below Average - 45%+ chance, needs improvement"
  else if 35 ≤ score then "Poor - 35%+ chance, significant work needed"
  else "Critical - <35% chance, major revisions required"

/-- The output of `calculate_overall_score` restricted to the fields the
claims are about.  The `keyword_analysis`, `job_analysis` and
`resume_analysis` entries (and the `job_info` argument only they consume)
are display-only pass-through dicts and are outside the embedded fragment. -/
structure ScoreBreakdown where
  overall_score : ℚ
  component_scores : ComponentScores
  recommendations : List String
  grade : String
  ats_compatibility : String

/-- Lines 86-108 of `calculate_overall_score`: combine already-computed
component scores.  `overall_score` is reported rounded to one decimal while
`grade` and `ats_compatibility` are computed from the unrounded sum, exactly
as in the source. -/
def breakdownFromScores (scores : ComponentScores) (resume_text : String)
    (job_keywords : List String) : ScoreBreakdown :=
  let overall_score := weightedSum scores
  { overall_score := pyRound1 overall_score,
    component_scores :=
      { keyword_match := pyRound1 scores.keyword_match,
        keyword_density := pyRound1 scores.keyword_density,
        personal_info := pyRound1 scores.personal_info,
        skills_alignment := pyRound1 scores.skills_alignment,
        experience_match := pyRound1 scores.experience_match,
        education_match := pyRound1 scores.education_match,
        formatting := pyRound1 scores.formatting },
    recommendations := generate_recommendations scores resume_text job_keywords,
    grade := get_grade_letter overall_score,
    ats_compatibility := get_compatibility_level overall_score }

/-- The seven component computations of `calculate_overall_score` (lines
75-84). -/
def computeComponentScores (ext : Ext) (resume_text : String)
    (job_keywords : List String) (personal_info : PersonalInfo) : ComponentScores :=
  { keyword_match := calculate_keyword_match_score ext resume_text job_keywords,
    keyword_density := calculate_keyword_density_score resume_text job_keywords,
    personal_info := calculate_personal_info_score personal_info,
    skills_alignment := calculate_skills_alignment_score resume_text job_keywords,
    experience_match := calculate_experience_match_score resume_text job_keywords,
    education_match := calculate_education_match_score resume_text job_keywords,
    formatting := calculate_formatting_score resume_text }

/-- `ATSScorer.calculate_overall_score` (lines 61-108), restricted to the
embedded output fields. -/
def calculate_overall_score (ext : Ext) (resume_text : String)
    (job_keywords : List String) (personal_info : PersonalInfo) : ScoreBreakdown :=
  breakdownFromScores (computeComponentScores ext resume_text job_keywords personal_info)
    resume_text job_keywords

/-! ## General lemmas about the helper functions -/

theorem sInsert_perm {α : Type} (r : α → α → Bool) (x : α) :
    ∀ l : List α, (sInsert r x l).Perm (x :: l)
  | [] => List.Perm.refl _
  | y :: ys => by
    simp only [sInsert]
    split
    · exact ((sInsert_perm r x ys).cons y).trans (List.Perm.swap x y ys)
    · exact List.Perm.refl _

theorem stableSortBy_perm {α : Type} (r : α → α → Bool) :
    ∀ l : List α, (stableSortBy r l).Perm l
  | [] => List.Perm.refl _
  | x :: xs => (sInsert_perm r x _).trans ((stableSortBy_perm r xs).cons x)

theorem sInsert_pairwise {α : Type} (r : α → α → Bool) (K : α → α → Prop)
    (h1 : ∀ a b, r a b = true → K a b) (h2 : ∀ a b, r a b = false → K b a)
    (ht : ∀ a b c, K a b → K b c → K a c) (x : α) :
    ∀ l : List α, l.Pairwise K → (sInsert r x l).Pairwise K
  | [], _ => by simp [sInsert]
  | y :: ys, hp => by
    rcases List.pairwise_cons.mp hp with ⟨hy, hys⟩
    simp only [sInsert]
    split
    next hr =>
      refine List.pairwise_cons.mpr ⟨?_, sInsert_pairwise r K h1 h2 ht x ys hys⟩
      intro z hz
      rcases List.mem_cons.mp ((sInsert_perm r x ys).mem_iff.mp hz) with hzx | hz'
      · rw [hzx]; exact h1 y x hr
      · exact hy z hz'
    next hr =>
      refine List.pairwise_cons.mpr ⟨?_, hp⟩
      intro z hz
      rcases List.mem_cons.mp hz with hzy | hz'
      · rw [hzy]; exact h2 y x (Bool.not_eq_true _ ▸ hr)
      · exact ht x y z (h2 y x (Bool.not_eq_true _ ▸ hr)) (hy z hz')

theorem stableSortBy_pairwise {α : Type} (r : α → α → Bool) (K : α → α → Prop)
    (h1 : ∀ a b, r a b = true → K a b) (h2 : ∀ a b, r a b = false → K b a)
    (ht : ∀ a b c, K a b → K b c → K a c) :
    ∀ l : List α, (stableSortBy r l).Pairwise K
  | [] => List.Pairwise.nil
  | x :: xs =>
    sInsert_pairwise r K h1 h2 ht x _ (stableSortBy_pairwise r K h1 h2 ht xs)

theorem filter_sInsert_pos {α : Type} (r : α → α → Bool) (p : α → Bool) (x : α)
    (hx : p x = true) :
    ∀ l : List α, (∀ y ∈ l, p y = true → r y x = false) →
      (sInsert r x l).filter p = x :: l.filter p
  | [], _ => by simp [sInsert, hx]
  | y :: ys, h => by
    simp only [sInsert]
    split
    next hr =>
      have hpy : p y = false := by
        cases hpy : p y
        · rfl
        · rw [h y (List.mem_cons_self y ys) hpy] at hr; cases hr
      rw [List.filter_cons, if_neg (by simp [hpy]), List.filter_cons, if_neg (by simp [hpy])]
      exact filter_sInsert_pos r p x hx ys (fun z hz => h z (List.mem_cons_of_mem y hz))
    next hr =>
      simp [List.filter_cons, hx]

theorem filter_sInsert_neg {α : Type} (r : α → α → Bool) (p : α → Bool) (x : α)
    (hx : p x = false) :
    ∀ l : List α, (sInsert r x l).filter p = l.filter p
  | [] => by simp [sInsert, hx]
  | y :: ys => by
    simp only [sInsert]
    split
    next hr =>
      rw [List.filter_cons, List.filter_cons, filter_sInsert_neg r p x hx ys]
    next hr =>
      simp [List.filter_cons, hx]

theorem filter_stableSortBy {α : Type} (r : α → α → Bool) (p : α → Bool) :
    ∀ l : List α, (∀ x ∈ l, ∀ y ∈ l, p x = true → p y = true → r y x = false) →
      (stableSortBy r l).filter p = l.filter p
  | [], _ => rfl
  | x :: xs, h => by
    have hrec := filter_stableSortBy r p xs
      (fun a ha b hb => h a (List.mem_cons_of_mem x ha) b (List.mem_cons_of_mem x hb))
    simp only [stableSortBy]
    cases hx : p x
    · rw [filter_sInsert_neg r p x hx, hrec, List.filter_cons, if_neg (by simp [hx])]
    · rw [filter_sInsert_pos r p x hx _ ?hcond, hrec, List.filter_cons, if_pos (by simp [hx])]
      case hcond =>
        intro y hy hpy
        have hyxs : y ∈ xs := (stableSortBy_perm r xs).mem_iff.mp hy
        exact h x (List.mem_cons_self x xs) y (List.mem_cons_of_mem x hyxs) hx hpy

theorem takeWhile_append_left {α : Type} (p : α → Bool) :
    ∀ l1 l2 : List α, (∃ c ∈ l1, p c = false) → (l1 ++ l2).takeWhile p = l1.takeWhile p
  | [], _, h => by simp at h
  | c :: cs, l2, h => by
    cases hpc : p c
    · simp [List.takeWhile_cons, hpc]
    · rcases h with ⟨d, hd, hpd⟩
      rcases List.mem_cons.mp hd with rfl | hd'
      · rw [hpc] at hpd; cases hpd
      · simp [List.takeWhile_cons, hpc, takeWhile_append_left p cs l2 ⟨d, hd', hpd⟩]

theorem mem_dedupSeen {α : Type} [DecidableEq α] (a : α) :
    ∀ (l seen : List α), a ∈ dedupSeen l seen ↔ a ∈ l ∧ a ∉ seen
  | [], seen => by simp [dedupSeen]
  | x :: xs, seen => by
    simp only [dedupSeen]
    split
    next hx =>
      rw [mem_dedupSeen a xs seen]
      constructor
      · rintro ⟨h1, h2⟩
        exact ⟨List.mem_cons_of_mem x h1, h2⟩
      · rintro ⟨h1, h2⟩
        rcases List.mem_cons.mp h1 with rfl | h1'
        · exact absurd hx h2
        · exact ⟨h1', h2⟩
    next hx =>
      rw [List.mem_cons, mem_dedupSeen a xs (x :: seen)]
      constructor
      · rintro (rfl | ⟨h1, h2⟩)
        · exact ⟨List.mem_cons_self a xs, hx⟩
        · exact ⟨List.mem_cons_of_mem x h1, fun hs => h2 (List.mem_cons_of_mem x hs)⟩
      · rintro ⟨h1, h2⟩
        rcases List.mem_cons.mp h1 with rfl | h1'
        · exact Or.inl rfl
        · by_cases hax : a = x
          · exact Or.inl hax
          · exact Or.inr ⟨h1', fun hs => (List.mem_cons.mp hs).elim hax h2⟩

theorem nodup_dedupSeen {α : Type} [DecidableEq α] :
    ∀ (l seen : List α), (dedupSeen l seen).Nodup
  | [], _ => List.nodup_nil
  | x :: xs, seen => by
    simp only [dedupSeen]
    split
    · exact nodup_dedupSeen xs seen
    · refine List.nodup_cons.mpr ⟨?_, nodup_dedupSeen xs (x :: seen)⟩
      intro hx
      exact ((mem_dedupSeen x xs (x :: seen)).mp hx).2 (List.mem_cons_self x seen)

theorem mem_pyDedup {α : Type} [DecidableEq α] (a : α) (l : List α) :
    a ∈ pyDedup l ↔ a ∈ l := by
  simp [pyDedup, mem_dedupSeen]

theorem nodup_pyDedup {α : Type} [DecidableEq α] (l : List α) : (pyDedup l).Nodup :=
  nodup_dedupSeen l []

theorem lexLt_asymm : ∀ a b : List Char, lexLtChars a b = true → lexLtChars b a = false
  | [], [], h => by simp [lexLtChars] at h
  | [], _ :: _, _ => by simp [lexLtChars]
  | _ :: _, [], h => by simp [lexLtChars] at h
  | x :: xs, y :: ys, h => by
    simp only [lexLtChars] at h ⊢
    rcases Nat.lt_trichotomy x.toNat y.toNat with h1 | h1 | h1
    · rw [if_neg (by omega), if_pos h1]
    · rw [if_neg (by omega), if_neg (by omega)]
      rw [if_neg (by omega), if_neg (by omega)] at h
      exact lexLt_asymm xs ys h
    · rw [if_neg (by omega), if_pos h1] at h
      cases h

theorem lexLt_conn : ∀ a b : List Char, lexLtChars a b = false → lexLtChars b a = false → a = b
  | [], [], _, _ => rfl
  | [], _ :: _, h, _ => by simp [lexLtChars] at h
  | _ :: _, [], _, h => by simp [lexLtChars] at h
  | x :: xs, y :: ys, h1, h2 => by
    simp only [lexLtChars] at h1 h2
    rcases Nat.lt_trichotomy x.toNat y.toNat with hc | hc | hc
    · rw [if_pos hc] at h1; cases h1
    · rw [if_neg (by omega), if_neg (by omega)] at h1 h2
      have hxy : x = y := Char.eq_of_val_eq (UInt32.ext hc)
      rw [hxy, lexLt_conn xs ys h1 h2]
    · rw [if_pos hc] at h2; cases h2

theorem lexLt_le_trans :
    ∀ a b c : List Char, lexLtChars b a = false → lexLtChars c b = false →
      lexLtChars c a = false
  | [], b, c, _, _ => by cases c <;> simp [lexLtChars]
  | _ :: _, b, [], h1, h2 => by
    cases b with
    | nil => simp [lexLtChars] at h1
    | cons hd tl => simp [lexLtChars] at h2
  | x :: xs, b, z :: zs, h1, h2 => by
    cases b with
    | nil => simp [lexLtChars] at h1
    | cons y ys =>
      simp only [lexLtChars] at h1 h2 ⊢
      have hba : ¬ y.toNat < x.toNat := by
        intro hlt; rw [if_pos hlt] at h1; cases h1
      have hcb : ¬ z.toNat < y.toNat := by
        intro hlt; rw [if_pos hlt] at h2; cases h2
      rw [if_neg (by omega)]
      by_cases hxz : x.toNat < z.toNat
      · rw [if_pos hxz]
      · rw [if_neg hxz]
        have hxy : x.toNat = y.toNat := by omega
        have hyz : y.toNat = z.toNat := by omega
        rw [if_neg (by omega), if_neg (by omega)] at h1
        rw [if_neg (by omega), if_neg (by omega)] at h2
        exact lexLt_le_trans xs ys zs h1 h2

theorem strLt_asymm (a b : String) : strLt a b = true → strLt b a = false :=
  lexLt_asymm a.data b.data

theorem strLt_conn (a b : String) (h1 : strLt a b = false) (h2 : strLt b a = false) :
    a = b := by
  apply String.ext
  exact lexLt_conn a.data b.data h1 h2

theorem strLt_le_trans (a b c : String) (h1 : strLt b a = false) (h2 : strLt c b = false) :
    strLt c a = false :=
  lexLt_le_trans a.data b.data c.data h1 h2

/-- `pySortedSet` output is strictly sorted under Python's string order
(hence duplicate-free). -/
theorem pySortedSet_sorted (l : List String) :
    (pySortedSet l).Pairwise (fun a b => strLt a b = true) := by
  have hle : (pySortedSet l).Pairwise (fun a b => strLt b a = false) :=
    stableSortBy_pairwise _ _
      (fun a b h => strLt_asymm a b h)
      (fun a b h => h)
      (fun a b c hab hbc => strLt_le_trans a b c hab hbc)
      (pyDedup l)
  have hnd : (pySortedSet l).Nodup :=
    ((stableSortBy_perm _ (pyDedup l)).nodup_iff).mpr (nodup_pyDedup l)
  refine (hle.and hnd).imp ?_
  rintro a b ⟨hba, hne⟩
  cases hab : strLt a b
  · exact absurd (strLt_conn a b hab hba) hne
  · rfl

theorem mem_pySortedSet (a : String) (l : List String) :
    a ∈ pySortedSet l ↔ a ∈ l := by
  unfold pySortedSet
  rw [(stableSortBy_perm _ (pyDedup l)).mem_iff, mem_pyDedup]

/-- `round(x, 1)` exceeds `x` by at most `1/20`. -/
theorem pyRound1_le (q : ℚ) : pyRound1 q ≤ q + 1/20 := by
  have h1 : ((⌊q * 10⌋ : ℤ) : ℚ) ≤ q * 10 := Int.floor_le _
  have h2 : q * 10 < (⌊q * 10⌋ : ℤ) + 1 := Int.lt_floor_add_one _
  simp only [pyRound1]
  split_ifs with hf1 hf2 hev <;> push_cast <;> linarith

theorem char_ofNat_toNat (n : ℕ) (h : Nat.isValidChar n) : (Char.ofNat n).toNat = n := by
  unfold Char.ofNat
  rw [dif_pos h]
  have hlt : n < 2 ^ 32 := by
    rcases h with h | ⟨h1, h2⟩ <;> omega
  unfold Char.ofNatAux Char.toNat
  simp only [UInt32.toNat, BitVec.toNat_ofNatLt]

theorem pyCharLower_idem (c : Char) : pyCharLower (pyCharLower c) = pyCharLower c := by
  by_cases h1 : 65 ≤ c.toNat ∧ c.toNat ≤ 90
  · have hv : Nat.isValidChar (c.toNat + 32) := Or.inl (by omega)
    have hc : pyCharLower c = Char.ofNat (c.toNat + 32) := by
      simp only [pyCharLower]; rw [if_pos h1]
    rw [hc]
    simp only [pyCharLower]
    rw [if_neg (by rw [char_ofNat_toNat _ hv]; omega)]
  · have hc : pyCharLower c = c := by
      simp only [pyCharLower]; rw [if_neg h1]
    rw [hc, hc]

theorem map_pyCharLower_idem :
    ∀ l : List Char, (l.map pyCharLower).map pyCharLower = l.map pyCharLower
  | [] => rfl
  | c :: cs => by simp only [List.map_cons, map_pyCharLower_idem cs, pyCharLower_idem c]

theorem pyLower_idem (s : String) : pyLower (pyLower s) = pyLower s :=
  congrArg String.mk (map_pyCharLower_idem s.data)

/-! ## Concrete capability records used by witnesses and counterexamples

Each theorem proved about a concrete record only exercises code paths whose
result does not depend on the record's stemmer/ratio behaviour beyond what
the record itself defines; the refuted claims quantify over all inputs, so
one concrete instantiation suffices. -/

/-- A trivial capability record: no tokens, identity stemmer, zero ratio,
empty stop-word set. -/
def extTriv : Ext :=
  { nlp := fun _ => [], stem := fun s => s, seqSim := fun _ _ => 0,
    stop_words := fun _ => false }

/-- A record whose tokenizer lemmatizes `mgr`/`mgmt` to `manage`/`manages`
and whose stemmer maps `manages` to `manage` (as a Porter-style stemmer
does). -/
def extStem : Ext :=
  { nlp := fun _ => [⟨"mgr", "manage", "NOUN", true⟩, ⟨"mgmt", "manages", "NOUN", true⟩],
    stem := fun s => if s = "manages" then "manage" else s,
    seqSim := fun _ _ => 0,
    stop_words := fun _ => false }

/-- A record whose tokenizer emits a lemma that is a one-letter stop word and
a lemma containing a digit (spaCy's `is_alpha`, length and stop-word tests
are about the surface text, not the lemma). -/
def extLemma : Ext :=
  { nlp := fun _ => [⟨"python", "A", "NOUN", true⟩, ⟨"java", "x9", "NOUN", true⟩],
    stem := fun s => s, seqSim := fun _ _ => 0,
    stop_words := fun w => w = "a" }

/-! ## Claim C4 -/

/-- Claim C4, corrected: with an empty `job_keywords` list
`enhanced_keyword_match_score` returns early with score 0, empty
`exact_matches`, empty `similar_matches` and zero counters — but the early
dict has NO `categorized_matches` (and no `keyword_analysis`) key at all,
rather than an empty one. -/
theorem enhancedScore_empty_job_keywords (ext : Ext) (resume_text : String) :
    (enhanced_keyword_match_score ext [] resume_text true).score = 0 ∧
    (enhanced_keyword_match_score ext [] resume_text true).exact_matches = [] ∧
    (enhanced_keyword_match_score ext [] resume_text true).similar_matches = [] ∧
    (enhanced_keyword_match_score ext [] resume_text true).total_job_keywords = 0 ∧
    (enhanced_keyword_match_score ext [] resume_text true).matched_job_keywords = 0 ∧
    (enhanced_keyword_match_score ext [] resume_text true).match_details = ⟨0, 0⟩ ∧
    (enhanced_keyword_match_score ext [] resume_text true).categorized_matches = none ∧
    (enhanced_keyword_match_score ext [] resume_text true).keyword_analysis = none :=
  ⟨rfl, rfl, rfl, rfl, rfl, rfl, rfl, rfl⟩

/-- Claim C4, counterexample to the claim as stated: at the concrete input
(`job_keywords = []`, `resume_text = ""`) the result carries no
`categorized_matches` key (`none`), so the field is not "present and empty"
(`some []`). -/
theorem enhancedScore_empty_job_keywords_cex :
    (enhanced_keyword_match_score extTriv [] "" true).categorized_matches = none ∧
    (enhanced_keyword_match_score extTriv [] "" true).categorized_matches ≠ some [] := by
  refine ⟨rfl, ?_⟩
  intro h
  rw [show (enhanced_keyword_match_score extTriv [] "" true).categorized_matches = none
    from rfl] at h
  cases h

/-! ## Claim C2 -/

/-- Claim C2, corrected: the missing-section check runs FIRST, so the
experience component is 40 whenever the extracted experience section is
empty — even when there is no relevant job keyword; the neutral 70 is
returned only when the section is non-empty and no job keyword contains one
of the five experience terms. -/
theorem experienceMatch_neutral_and_missing (resume_text : String) (job_keywords : List String) :
    (extract_section_text resume_text "experience" = "" →
      calculate_experience_match_score resume_text job_keywords = 40) ∧
    (extract_section_text resume_text "experience" ≠ "" →
      job_keywords.filter
          (fun k => experienceTerms.any (fun term => isSubstr term (pyLower k))) = [] →
      calculate_experience_match_score resume_text job_keywords = 70) := by
  constructor
  · intro h
    simp only [calculate_experience_match_score]
    rw [if_pos h]
  · intro h hrel
    simp only [calculate_experience_match_score]
    rw [if_neg h, hrel]
    simp

/-- Claim C2, counterexample to the claim as stated: with `resume_text = ""`
the experience section is missing; the claim demands 70 for a keyword list
with no relevant keyword (here the empty list), but the code returns 40. -/
theorem experienceMatch_cex :
    calculate_experience_match_score "" [] = 40 ∧
    ([] : List String).filter
        (fun k => experienceTerms.any (fun term => isSubstr term (pyLower k))) = [] ∧
    (40 : ℚ) ≠ 70 := by
  refine ⟨rfl, rfl, by norm_num⟩

/-! ## Claim C3 -/

/-- Claim C3, corrected: once a section is open, a line containing a header
synonym of the TARGET section never stops extraction — the first branch of
the loop matches it, discards the line, re-sets `in_section` and continues.
Extraction stops (returning exactly the accumulator, so no line at or after
the boundary is included) at the first non-blank line that contains a header
synonym of some section type but none of the target section. -/
theorem extractLoop_boundary (section_keywords all_keywords : List String)
    (line : String) (rest acc : List String) (in_section : Bool) :
    (section_keywords.any (fun kw => isSubstr kw (pyStrip (pyLower line))) = true →
      extractLoop section_keywords all_keywords (line :: rest) in_section acc =
        extractLoop section_keywords all_keywords rest true acc) ∧
    (section_keywords.any (fun kw => isSubstr kw (pyStrip (pyLower line))) = false →
      pyStrip line ≠ "" →
      all_keywords.any (fun kw => isSubstr kw (pyStrip (pyLower line))) = true →
      extractLoop section_keywords all_keywords (line :: rest) true acc = acc) := by
  constructor
  · intro h
    simp only [extractLoop]
    rw [if_pos h]
  · intro h hblank hall
    simp only [extractLoop]
    rw [if_neg (by simp [h]), if_pos ⟨by trivial, hblank⟩, if_pos hall]

/-- Claim C3, counterexample to the claim as stated: extracting the `skills`
section of `"skills\npython\ntechnical skills\njava"` returns
`"python java"`: the third line contains the target-section synonym
`"skills"`, yet extraction does not stop there, and the later line `"java"`
is included. -/
theorem extractSection_cex :
    extract_section_text "skills\npython\ntechnical skills\njava" "skills" = "python java" ∧
    allSectionKeywords.any
      (fun kw => isSubstr kw (pyStrip (pyLower "technical skills"))) = true ∧
    isSubstr "java"
      (extract_section_text "skills\npython\ntechnical skills\njava" "skills") = true := by
  refine ⟨by decide, by decide, by decide⟩

/-! ## Shared score-bound lemmas -/

theorem clamp_bounds (k : ℚ) (hk : 80 ≤ k) :
    80 ≤ max 0 (min k 100) ∧ max 0 (min k 100) ≤ 100 :=
  ⟨le_max_of_le_right (le_min hk (by norm_num)), max_le (by norm_num) (min_le_right _ _)⟩

theorem formatting_score_bounds (resume_text : String) :
    80 ≤ calculate_formatting_score resume_text ∧
      calculate_formatting_score resume_text ≤ 100 := by
  simp only [calculate_formatting_score]
  refine clamp_bounds _ ?_
  split_ifs <;> norm_num

theorem score_formula_bounds (E W n : ℕ) :
    0 ≤ min (((E : ℚ) + if 0 < W then (W : ℚ) * 0.8 else 0) / (n : ℚ)) 1 * 100 ∧
    min (((E : ℚ) + if 0 < W then (W : ℚ) * 0.8 else 0) / (n : ℚ)) 1 * 100 ≤ 100 := by
  have hnum : (0 : ℚ) ≤ (E : ℚ) + if 0 < W then (W : ℚ) * 0.8 else 0 := by
    have : (0 : ℚ) ≤ if 0 < W then (W : ℚ) * 0.8 else 0 := by
      split_ifs
      · exact mul_nonneg (Nat.cast_nonneg _) (by norm_num)
      · exact le_refl 0
    have hE : (0 : ℚ) ≤ (E : ℚ) := Nat.cast_nonneg _
    linarith
  have hT : (0 : ℚ) ≤ ((E : ℚ) + if 0 < W then (W : ℚ) * 0.8 else 0) / (n : ℚ) :=
    div_nonneg hnum (Nat.cast_nonneg _)
  constructor
  · exact mul_nonneg (le_min hT (by norm_num)) (by norm_num)
  · have hm := min_le_right (((E : ℚ) + if 0 < W then (W : ℚ) * 0.8 else 0) / (n : ℚ)) 1
    linarith

theorem matchTotalScore_bounds (E W n : ℕ) :
    0 ≤ matchTotalScore E W n * 100 ∧ matchTotalScore E W n * 100 ≤ 100 := by
  simp only [matchTotalScore]
  exact score_formula_bounds E W n

/-- The score field of `enhanced_keyword_match_score` always lies in
[0, 100] (for any capability record, keyword list and text). -/
theorem enhancedScore_bounds (ext : Ext) (jks : List String) (rt : String) (us : Bool) :
    0 ≤ (enhanced_keyword_match_score ext jks rt us).score ∧
    (enhanced_keyword_match_score ext jks rt us).score ≤ 100 := by
  by_cases h : jks = []
  · subst h
    constructor <;>
      rw [show (enhanced_keyword_match_score ext [] rt us).score = 0 from rfl] <;> norm_num
  · simp only [enhanced_keyword_match_score]
    rw [if_neg h]
    exact matchTotalScore_bounds _ _ _

theorem keywordMatch_le_90 (ext : Ext) (rt : String) (jks : List String) :
    calculate_keyword_match_score ext rt jks ≤ 90 := by
  simp only [calculate_keyword_match_score]
  split_ifs with h h80
  · norm_num
  · have hb := (enhancedScore_bounds ext jks rt true).2
    exact (min_le_left _ _).trans (by linarith)
  · have hb : ¬ (80 : ℚ) < (enhanced_keyword_match_score ext jks rt true).score := h80
    exact (min_le_left _ _).trans (by push_neg at hb; linarith)

theorem density_le_100 (rt : String) (jks : List String) :
    calculate_keyword_density_score rt jks ≤ 100 := by
  simp only [calculate_keyword_density_score]
  split_ifs with h1 h2 h3 h4
  · norm_num
  · norm_num
  · norm_num
  · linarith
  · refine max_le (by norm_num) ?_
    push_neg at h3 h4
    have h8 := h3 h4
    linarith

theorem personal_le_100 (pi : PersonalInfo) : calculate_personal_info_score pi ≤ 100 := by
  simp only [calculate_personal_info_score]
  exact min_le_right _ _

theorem skills_le_95 (rt : String) (jks : List String) :
    calculate_skills_alignment_score rt jks ≤ 95 := by
  simp only [calculate_skills_alignment_score]
  split_ifs <;> norm_num

theorem experience_le_100 (rt : String) (jks : List String) :
    calculate_experience_match_score rt jks ≤ 100 := by
  simp only [calculate_experience_match_score]
  split_ifs <;> first | norm_num | exact min_le_right _ _

theorem education_le_100 (rt : String) (jks : List String) :
    calculate_education_match_score rt jks ≤ 100 := by
  simp only [calculate_education_match_score]
  split_ifs <;> first | norm_num | exact min_le_right _ _

/-! ## Recommendation-string machinery -/

theorem beforeColon_append (s t : String) (h : s.data.any (fun c => c = ':') = true) :
    beforeColon (s ++ t) = beforeColon s := by
  rcases List.any_eq_true.mp h with ⟨c, hc, hc'⟩
  have hcc : c = ':' := by simpa using hc'
  subst hcc
  unfold beforeColon
  refine congrArg String.mk ?_
  rw [String.data_append]
  exact takeWhile_append_left _ s.data t.data ⟨':', hc, by decide⟩

theorem recPriorityKey_append (s t : String) (h : s.data.any (fun c => c = ':') = true) :
    recPriorityKey (s ++ t) = recPriorityKey s := by
  unfold recPriorityKey
  rw [beforeColon_append s t h]

theorem mem_ite_nil_elim {α : Type} {a x : α} {c : Prop} [Decidable c]
    (h : a ∈ (if c then [x] else [])) : c ∧ a = x := by
  split_ifs at h with hc
  · exact ⟨hc, List.mem_singleton.mp h⟩
  · exact absurd h (List.not_mem_nil a)

theorem mem_ite_nil_elim' {α : Type} {a : α} {c : Prop} [Decidable c] {L : List α}
    (h : a ∈ (if c then L else [])) : c ∧ a ∈ L := by
  split_ifs at h with hc
  · exact ⟨hc, h⟩
  · exact absurd h (List.not_mem_nil a)

theorem mem_ite_elim {α : Type} {a : α} {c : Prop} [Decidable c] {L1 L2 : List α}
    (h : a ∈ (if c then L1 else L2)) : a ∈ L1 ∨ a ∈ L2 := by
  split_ifs at h
  · exact Or.inl h
  · exact Or.inr h

/-- The Low formatting recommendation appears among the generated
recommendations only when the formatting component is below 70. -/
theorem recLowFormatting_mem_gen (scores : ComponentScores) (rt : String)
    (jk : List String) (h : recLowFormatting ∈ genRecommendations scores rt jk) :
    scores.formatting < 70 := by
  simp only [genRecommendations, List.mem_append] at h
  rcases h with ((((((((((h | h) | h) | h) | h) | h) | h) | h) | h) | h) | h)
  · exact absurd (mem_ite_nil_elim h).2 (by decide)
  · obtain ⟨_, he⟩ := mem_ite_nil_elim (mem_ite_nil_elim' h).2
    have hk := congrArg recPriorityKey he
    rw [recPriorityKey_append _ _ (by decide)] at hk
    exact absurd hk (by decide)
  · obtain ⟨_, he⟩ := mem_ite_nil_elim (mem_ite_nil_elim' h).2
    have hk := congrArg recPriorityKey he
    rw [recPriorityKey_append _ _ (by decide)] at hk
    exact absurd hk (by decide)
  · exact absurd (mem_ite_nil_elim h).2 (by decide)
  · exact absurd (mem_ite_nil_elim h).2 (by decide)
  · exact absurd (mem_ite_nil_elim h).2 (by decide)
  · exact absurd (mem_ite_nil_elim h).2 (by decide)
  · exact absurd (mem_ite_nil_elim h).2 (by decide)
  · exact (mem_ite_nil_elim h).1
  · exact absurd (mem_ite_nil_elim h).2 (by decide)
  · rcases mem_ite_elim h with h | h
    · exact absurd (List.mem_singleton.mp h) (by decide)
    rcases mem_ite_elim h with h | h
    · exact absurd (List.mem_singleton.mp h) (by decide)
    rcases mem_ite_elim h with h | h
    · exact absurd (List.mem_singleton.mp h) (by decide)
    rcases mem_ite_elim h with h | h
    · exact absurd (List.mem_singleton.mp h) (by decide)
    · exact absurd (List.mem_singleton.mp h) (by decide)

/-! ## Claim C8 -/

/-- Claim C8, confirmed: the formatting component always lies in [80, 100]
(base 100, at most one penalty of 20, non-negative bonuses, clamp), so the
Low-priority formatting recommendation (whose trigger is formatting < 70)
is never contained in the recommendations of `calculate_overall_score`. -/
theorem formattingScore_floor_no_low_rec (ext : Ext) (rt : String)
    (jks : List String) (pinfo : PersonalInfo) :
    (80 ≤ calculate_formatting_score rt ∧ calculate_formatting_score rt ≤ 100) ∧
    recLowFormatting ∉ (calculate_overall_score ext rt jks pinfo).recommendations := by
  refine ⟨formatting_score_bounds rt, ?_⟩
  intro hmem
  have e : (calculate_overall_score ext rt jks pinfo).recommendations =
      (stableSortBy (fun y x => recPriorityKey y < recPriorityKey x)
        (genRecommendations (computeComponentScores ext rt jks pinfo) rt jks)).take 7 := rfl
  rw [e] at hmem
  have h1 : recLowFormatting ∈
      stableSortBy (fun y x => recPriorityKey y < recPriorityKey x)
        (genRecommendations (computeComponentScores ext rt jks pinfo) rt jks) :=
    (List.take_sublist 7 _).subset hmem
  have h2 : recLowFormatting ∈ genRecommendations (computeComponentScores ext rt jks pinfo) rt jks :=
    (stableSortBy_perm _ _).mem_iff.mp h1
  have h3 := recLowFormatting_mem_gen _ _ _ h2
  have h4 : (computeComponentScores ext rt jks pinfo).formatting =
      calculate_formatting_score rt := rfl
  rw [h4] at h3
  have h5 := (formatting_score_bounds rt).1
  linarith

/-! ## Claim C9 -/

/-- Claim C9, confirmed: the keyword_match component is capped at 90 (the
raw percentage is at most 100, the excess above 80 is halved, the result is
clamped), and with the fixed weights the reported overall_score never
exceeds 96 (the unrounded sum is at most 95.5 and rounding adds at most
0.05). -/
theorem keywordMatch_cap_overall_cap (ext : Ext) (rt : String)
    (jks : List String) (pinfo : PersonalInfo) :
    calculate_keyword_match_score ext rt jks ≤ 90 ∧
    (calculate_overall_score ext rt jks pinfo).overall_score ≤ 96 := by
  refine ⟨keywordMatch_le_90 ext rt jks, ?_⟩
  have hkm := keywordMatch_le_90 ext rt jks
  have hkd := density_le_100 rt jks
  have hpi := personal_le_100 pinfo
  have hsa := skills_le_95 rt jks
  have hem := experience_le_100 rt jks
  have hed := education_le_100 rt jks
  have hfm := (formatting_score_bounds rt).2
  have hws : weightedSum (computeComponentScores ext rt jks pinfo) ≤ 95.5 := by
    simp only [weightedSum, computeComponentScores]
    linarith
  have hrnd := pyRound1_le (weightedSum (computeComponentScores ext rt jks pinfo))
  have e : (calculate_overall_score ext rt jks pinfo).overall_score =
      pyRound1 (weightedSum (computeComponentScores ext rt jks pinfo)) := rfl
  rw [e]
  linarith

/-! ## Claim C10 -/

/-- The component-score map of the C10 instance: every component 89.96, so
the unrounded weighted sum is 89.96. -/
def c10Scores : ComponentScores :=
  ⟨89.96, 89.96, 89.96, 89.96, 89.96, 89.96, 89.96⟩

/-- Claim C10, confirmed: `grade` and `ats_compatibility` are computed from
the unrounded weighted sum while the reported `overall_score` is that sum
rounded to one decimal; at the component map with every score 89.96 the
breakdown reports `overall_score = 90.0` together with grade `"B"`. -/
theorem grade_from_unrounded_sum :
    (∀ (scores : ComponentScores) (rt : String) (jks : List String),
      (breakdownFromScores scores rt jks).grade = get_grade_letter (weightedSum scores) ∧
      (breakdownFromScores scores rt jks).ats_compatibility =
        get_compatibility_level (weightedSum scores) ∧
      (breakdownFromScores scores rt jks).overall_score = pyRound1 (weightedSum scores)) ∧
    (∀ (ext : Ext) (rt : String) (jks : List String) (pinfo : PersonalInfo),
      calculate_overall_score ext rt jks pinfo =
        breakdownFromScores (computeComponentScores ext rt jks pinfo) rt jks) ∧
    ((breakdownFromScores c10Scores "" []).overall_score = 90 ∧
     (breakdownFromScores c10Scores "" []).grade = "B") := by
  refine ⟨fun scores rt jks => ⟨rfl, rfl, rfl⟩, fun ext rt jks pinfo => rfl, ?_, ?_⟩
  · have hws : weightedSum c10Scores = 89.96 := by
      norm_num [weightedSum, c10Scores]
    have e : (breakdownFromScores c10Scores "" []).overall_score =
        pyRound1 (weightedSum c10Scores) := rfl
    rw [e, hws]
    have hf : (⌊(89.96 : ℚ) * 10⌋ : ℤ) = 899 := by norm_num [Int.floor_eq_iff]
    simp only [pyRound1, hf]
    norm_num
  · have hws : weightedSum c10Scores = 89.96 := by
      norm_num [weightedSum, c10Scores]
    have e : (breakdownFromScores c10Scores "" []).grade =
        get_grade_letter (weightedSum c10Scores) := rfl
    rw [e, hws]
    simp only [get_grade_letter]
    rw [if_neg (by norm_num), if_pos (by norm_num)]

/-! ## Claim C5 -/

theorem tokenKeep_some (ext : Ext) (min_len : Nat) (tok : Token) (w : String)
    (h : tokenKeep ext min_len true false tok = some w) :
    tok.pos_ ∈ ["NOUN", "PROPN", "VERB"] ∧ tok.is_alpha = true ∧
    min_len ≤ (pyLower tok.text).length ∧ ext.stop_words (pyLower tok.text) = false ∧
    w = pyLower tok.lemma_ ∧ w ∉ lowInfoLemmas := by
  simp only [tokenKeep] at h
  split_ifs at h with h1 h2 h3 h4 h5
  have hw := Option.some.inj h
  refine ⟨?_, ?_, Nat.not_lt.mp h3, ?_, hw.symm, ?_⟩
  · simp at h1 ⊢
    tauto
  · simpa using h2
  · simpa using h4
  · rw [hw] at h5
    exact h5

theorem nodup_pySortedSet (l : List String) : (pySortedSet l).Nodup :=
  ((stableSortBy_perm _ (pyDedup l)).nodup_iff).mpr (nodup_pyDedup l)

/-- Claim C5, corrected: the output of `get_keywords` is strictly sorted in
Python's string order, duplicate-free, lowercase, and avoids the lemma
blocklist; but the length, stop-word and alphabetic filters are applied to
the SURFACE token (`token.text`/`token.is_alpha`), while the collected
member is the lowercased LEMMA, so those three properties constrain the
originating token, not the member itself. -/
theorem getKeywords_invariants (ext : Ext) (text : String) (min_len : Nat) :
    (get_keywords ext text min_len true false).Pairwise (fun a b => strLt a b = true) ∧
    (get_keywords ext text min_len true false).Nodup ∧
    ∀ w ∈ get_keywords ext text min_len true false,
      pyLower w = w ∧ w ∉ lowInfoLemmas ∧
      ∃ tok ∈ ext.nlp text, tok.pos_ ∈ ["NOUN", "PROPN", "VERB"] ∧ tok.is_alpha = true ∧
        min_len ≤ (pyLower tok.text).length ∧ ext.stop_words (pyLower tok.text) = false ∧
        w = pyLower tok.lemma_ := by
  simp only [get_keywords]
  split_ifs with hb
  · exact ⟨List.Pairwise.nil, List.nodup_nil, by simp⟩
  · refine ⟨pySortedSet_sorted _, nodup_pySortedSet _, ?_⟩
    intro w hw
    rw [mem_pySortedSet] at hw
    rcases List.mem_filterMap.mp hw with ⟨tok, htok, hkeep⟩
    obtain ⟨hpos, halpha, hlen, hstop, hw', hblock⟩ := tokenKeep_some ext min_len tok w hkeep
    exact ⟨by rw [hw']; exact pyLower_idem _, hblock,
      tok, htok, hpos, halpha, hlen, hstop, hw'⟩

/-- Claim C5, counterexample to the claim as stated: a token stream whose
surface texts pass all filters but whose lemmas are `"A"` (a one-letter
stop word) and `"x9"` (not alphabetic) produces the member list
`["a", "x9"]`: a member that IS a stop word and shorter than `min_len`, and
a member that is not alphabetic-only. -/
theorem getKeywords_cex :
    get_keywords extLemma "python java" 2 true false = ["a", "x9"] ∧
    extLemma.stop_words "a" = true ∧
    ("a" : String).length < 2 ∧
    ("x9" : String).data.all Char.isAlpha = false :=
  ⟨by decide, by decide, by decide, by decide⟩

/-! ## Claim C1 -/

theorem dedupSeen_eq_self {α : Type} [DecidableEq α] :
    ∀ (l seen : List α), l.Nodup → (∀ a ∈ l, a ∉ seen) → dedupSeen l seen = l
  | [], _, _, _ => rfl
  | x :: xs, seen, hnd, hni => by
    simp only [dedupSeen]
    rw [if_neg (hni x (List.mem_cons_self x xs))]
    congr 1
    apply dedupSeen_eq_self xs (x :: seen) (List.nodup_cons.mp hnd).2
    intro a ha hmem
    rcases List.mem_cons.mp hmem with haq | hseen
    · rw [haq] at ha
      exact (List.nodup_cons.mp hnd).1 ha
    · exact hni a (List.mem_cons_of_mem x ha) hseen

theorem pyDedup_eq_self {α : Type} [DecidableEq α] (l : List α) (h : l.Nodup) :
    pyDedup l = l :=
  dedupSeen_eq_self l [] h (by simp)

/-- With exact count = job-keyword count the capped match formula is exactly
1, whatever the similar-match weight. -/
theorem matchTotalScore_full (n W : ℕ) (hn : 0 < n) : matchTotalScore n W n * 100 = 100 := by
  simp only [matchTotalScore]
  have hnq : (0 : ℚ) < (n : ℚ) := by exact_mod_cast hn
  have hs : (0 : ℚ) ≤ if 0 < W then (W : ℚ) * 0.8 else 0 := by
    split_ifs
    · exact mul_nonneg (Nat.cast_nonneg _) (by norm_num)
    · exact le_refl 0
  have h1 : (1 : ℚ) ≤ ((n : ℚ) + if 0 < W then (W : ℚ) * 0.8 else 0) / (n : ℚ) := by
    rw [le_div_iff hnq]
    linarith
  rw [min_eq_right h1]
  norm_num

/-- If every job keyword passes the exact-match test and the list is
duplicate-free, the enhanced score is exactly 100. -/
theorem enhancedScore_all_exact (ext : Ext) (jks : List String) (rt : String)
    (h : jks ≠ []) (hnd : jks.Nodup)
    (hall : ∀ kw ∈ jks, isExactMatch kw (pyLower rt) = true) :
    (enhanced_keyword_match_score ext jks rt true).score = 100 := by
  have hfe : List.filter (fun kw => isExactMatch kw (pyLower rt)) jks = jks :=
    List.filter_eq_self.mpr hall
  simp only [enhanced_keyword_match_score]
  rw [if_neg h, hfe, pyDedup_eq_self jks hnd]
  exact matchTotalScore_full jks.length _ (List.length_pos.mpr h)

/-- Claim C1, corrected: the enhanced score always lies in [0, 100]; and for
a DUPLICATE-FREE job-keyword list on which every keyword passes the
exact-match test the score is exactly 100.  (The original biconditional
fails in both directions: duplicates deflate the numerator after the `set`
dedup, and similar matches alone can drive the capped score to 100.) -/
theorem enhancedScore_range_and_all_exact (ext : Ext) (jks : List String) (rt : String)
    (h : jks ≠ []) :
    (0 ≤ (enhanced_keyword_match_score ext jks rt true).score ∧
     (enhanced_keyword_match_score ext jks rt true).score ≤ 100) ∧
    (jks.Nodup → (∀ kw ∈ jks, isExactMatch kw (pyLower rt) = true) →
      (enhanced_keyword_match_score ext jks rt true).score = 100) :=
  ⟨enhancedScore_bounds ext jks rt true,
   fun hnd hall => enhancedScore_all_exact ext jks rt h hnd hall⟩

/-- Witness for the C1 theorem at a concrete input. -/
theorem enhancedScore_range_and_all_exact_witness :
    (["python"] : List String) ≠ [] ∧
    (0 ≤ (enhanced_keyword_match_score extTriv ["python"] "python" true).score ∧
     (enhanced_keyword_match_score extTriv ["python"] "python" true).score ≤ 100) ∧
    (enhanced_keyword_match_score extTriv ["python"] "python" true).score = 100 := by
  have h := enhancedScore_range_and_all_exact extTriv ["python"] "python" (by decide)
  exact ⟨by decide, h.1, h.2 (by decide) (by decide)⟩

theorem find_similar_nil (ext : Ext) (jks : List String) (θ : ℚ) :
    find_similar_keywords ext jks [] θ = [] := by
  simp only [find_similar_keywords]
  rw [List.filterMap_eq_nil]
  intro jk hjk
  simp [similarEntry, similarCandidates, stableSortBy]

/-- Claim C1, counterexample to the claim as stated, at two concrete inputs:
with the duplicate list `["python", "python"]` every job keyword is an exact
match yet the score is 50 (not 100); and with `["manage"]` against a résumé
whose text contains no variant of "manage" but whose keywords are similar,
the score is 100 although the keyword is not an exact match.  Both
directions of the biconditional fail. -/
theorem enhancedScore_iff_cex :
    ((enhanced_keyword_match_score extTriv ["python", "python"] "python" true).score = 50 ∧
     (["python", "python"] : List String).all
       (fun kw => isExactMatch kw (pyLower "python")) = true) ∧
    ((enhanced_keyword_match_score extStem ["manage"] "mgr mgmt" true).score = 100 ∧
     isExactMatch "manage" (pyLower "mgr mgmt") = false) := by
  refine ⟨⟨?_, by decide⟩, ⟨?_, by decide⟩⟩
  · have hg : get_keywords extTriv "python" = [] := by decide
    have hE : pyDedup (List.filter (fun kw => isExactMatch kw (pyLower "python"))
        ["python", "python"]) = ["python"] := by decide
    simp only [enhanced_keyword_match_score]
    rw [if_neg (by decide)]
    simp only [hg, find_similar_nil, hE]
    simp
    norm_num [matchTotalScore, min_def]
  · have hs1 : calculate_keyword_similarity extStem "manage" "manage" = 1 := by
      simp [calculate_keyword_similarity]
    have hs2 : calculate_keyword_similarity extStem "manage" "manages" = 0.9 := by
      have hk1 : pyStrip (pyLower "manage") = "manage" := by decide
      have hk2 : pyStrip (pyLower "manages") = "manages" := by decide
      simp [calculate_keyword_similarity, hk1, hk2, extStem]
    have hc : similarCandidates extStem "manage" ["manage", "manages"] 0.7 =
        [("manage", 1), ("manages", 0.9)] := by
      simp only [similarCandidates, List.filterMap_cons, List.filterMap_nil, hs1, hs2]
      norm_num
    have hsort : stableSortBy (fun y x => x.2 < y.2)
        [(("manage" : String), (1 : ℚ)), ("manages", 0.9)] =
        [("manage", 1), ("manages", 0.9)] := by
      simp only [stableSortBy, sInsert]
      norm_num
    have hd1 : pyDedup (["manage"] : List String) = ["manage"] := by decide
    have hfB : find_similar_keywords extStem ["manage"] ["manage", "manages"] =
        [("manage", ["manage", "manages"])] := by
      simp only [find_similar_keywords, hd1, List.filterMap_cons, List.filterMap_nil,
        similarEntry, hc, hsort]
      simp
    have hgB : get_keywords extStem "mgr mgmt" = ["manage", "manages"] := by decide
    have hex : pyDedup (List.filter (fun kw => isExactMatch kw (pyLower "mgr mgmt"))
        ["manage"]) = [] := by decide
    simp only [enhanced_keyword_match_score]
    rw [if_neg (by decide)]
    simp only [hgB, hfB, hex]
    simp
    norm_num [matchTotalScore, min_def]

/-! ## Claim C6 -/

/-- Whether a recommendation string is one of the five "Overall" messages
(recognized, like the sort key, by its text before the first colon). -/
def isOverallRec (s : String) : Bool :=
  ["ðŸš¨ OVERALL", "ðŸ“Š OVERALL", "âœ¨ OVERALL", "ðŸŽ‰ OVERALL"].contains (beforeColon s)

theorem countP_ite_singleton {c : Prop} [Decidable c] (p : String → Bool) (x : String)
    (hx : p x = false) : (if c then [x] else []).countP p = 0 := by
  split_ifs <;> simp [List.countP_cons, List.countP_nil, hx]

theorem countP_ite_nested {c d : Prop} [Decidable c] [Decidable d] (p : String → Bool)
    (x : String) (hx : p x = false) :
    (if c then (if d then [x] else []) else []).countP p = 0 := by
  split_ifs <;> simp [List.countP_cons, List.countP_nil, hx]

theorem countP_overall_chain (o : ℚ) :
    (if o < 40 then [recOverallCritical]
     else if o < 60 then [recOverallSignificant]
     else if o < 75 then [recOverallGood]
     else if o < 85 then [recOverallVeryGood]
     else [recOverallExcellent]).countP isOverallRec = 1 := by
  have h1 : isOverallRec recOverallCritical = true := by decide
  have h2 : isOverallRec recOverallSignificant = true := by decide
  have h3 : isOverallRec recOverallGood = true := by decide
  have h4 : isOverallRec recOverallVeryGood = true := by decide
  have h5 : isOverallRec recOverallExcellent = true := by decide
  split_ifs <;> simp [List.countP_cons, List.countP_nil, h1, h2, h3, h4, h5]

/-- The generated (pre-sort, pre-truncation) recommendation list always
contains exactly one Overall message. -/
theorem countP_overall_gen (scores : ComponentScores) (rt : String) (jk : List String) :
    (genRecommendations scores rt jk).countP isOverallRec = 1 := by
  have e2 : ∀ t : String, isOverallRec (recCritKeywordsPre ++ t) = false := by
    intro t
    unfold isOverallRec
    rw [beforeColon_append _ _ (by decide)]
    decide
  have e3 : ∀ t : String, isOverallRec (recHighKeywordsPre ++ t) = false := by
    intro t
    unfold isOverallRec
    rw [beforeColon_append _ _ (by decide)]
    decide
  simp only [genRecommendations, List.countP_append]
  rw [countP_ite_singleton _ _ (by decide),
      countP_ite_nested _ _ (e2 _),
      countP_ite_nested _ _ (e3 _),
      countP_ite_singleton _ _ (by decide),
      countP_ite_singleton _ _ (by decide),
      countP_ite_singleton _ _ (by decide),
      countP_ite_singleton _ _ (by decide),
      countP_ite_singleton _ _ (by decide),
      countP_ite_singleton _ _ (by decide),
      countP_ite_singleton _ _ (by decide),
      countP_overall_chain _]

/-- Claim C6, corrected: the returned recommendation list has length at most
7, is stable-sorted by the documented priority ranks (within a rank the
returned entries are a prefix of the generated ones in generation order),
and the GENERATED list contains exactly one Overall message — but after
truncation to 7 the returned list contains at most one, possibly none. -/
theorem recommendations_sorted_capped (scores : ComponentScores) (rt : String)
    (jks : List String) :
    (generate_recommendations scores rt jks).length ≤ 7 ∧
    (generate_recommendations scores rt jks).Pairwise
      (fun a b => recPriorityKey a ≤ recPriorityKey b) ∧
    (∀ n : Nat, (generate_recommendations scores rt jks).filter
        (fun s => recPriorityKey s = n) <+:
      (genRecommendations scores rt jks).filter (fun s => recPriorityKey s = n)) ∧
    (generate_recommendations scores rt jks).countP isOverallRec ≤ 1 ∧
    (genRecommendations scores rt jks).countP isOverallRec = 1 := by
  have e0 : generate_recommendations scores rt jks =
      (stableSortBy (fun y x => recPriorityKey y < recPriorityKey x)
        (genRecommendations scores rt jks)).take 7 := rfl
  have hsorted : (stableSortBy (fun y x => recPriorityKey y < recPriorityKey x)
      (genRecommendations scores rt jks)).Pairwise
      (fun a b => recPriorityKey a ≤ recPriorityKey b) := by
    apply stableSortBy_pairwise
    · intro a b hr
      exact le_of_lt (by simpa using hr)
    · intro a b hr
      exact Nat.le_of_not_lt (by simpa using hr)
    · intro a b c hab hbc
      exact le_trans hab hbc
  refine ⟨?_, ?_, ?_, ?_, countP_overall_gen scores rt jks⟩
  · rw [e0]
    exact List.length_take_le 7 _
  · rw [e0]
    exact List.Pairwise.sublist (List.take_sublist 7 _) hsorted
  · intro n
    have hstable : (stableSortBy (fun y x => recPriorityKey y < recPriorityKey x)
        (genRecommendations scores rt jks)).filter (fun s => recPriorityKey s = n) =
        (genRecommendations scores rt jks).filter (fun s => recPriorityKey s = n) := by
      apply filter_stableSortBy
      intro x _ y _ hx hy
      have hx' : recPriorityKey x = n := by simpa using hx
      have hy' : recPriorityKey y = n := by simpa using hy
      simp [hx', hy']
    rw [e0, ← hstable]
    refine ⟨((stableSortBy (fun y x => recPriorityKey y < recPriorityKey x)
        (genRecommendations scores rt jks)).drop 7).filter
        (fun s => recPriorityKey s = n), ?_⟩
    rw [← List.filter_append, List.take_append_drop]
  · rw [e0]
    calc ((stableSortBy (fun y x => recPriorityKey y < recPriorityKey x)
          (genRecommendations scores rt jks)).take 7).countP isOverallRec
        ≤ (stableSortBy (fun y x => recPriorityKey y < recPriorityKey x)
            (genRecommendations scores rt jks)).countP isOverallRec :=
          List.Sublist.countP_le _ (List.take_sublist 7 _)
      _ = (genRecommendations scores rt jks).countP isOverallRec :=
          (stableSortBy_perm _ _).countP_eq _
      _ = 1 := countP_overall_gen scores rt jks

/-- The component-score map of the C6 counterexample: it fires nine
recommendation triggers while keeping the weighted sum in the [40, 60)
Overall bracket. -/
def c6Scores : ComponentScores := ⟨39, 100, 59, 59, 59, 69, 69⟩

/-- Claim C6, counterexample to the claim as stated: at the concrete scores
`c6Scores` (with résumé "zzz" and one job keyword) nine recommendations are
generated; sorting places the Overall message (rank 5) after both Low
entries (rank 4), and truncation to 7 drops it — the returned list contains
NO Overall message. -/
theorem recommendations_cex :
    (generate_recommendations c6Scores "zzz" ["python"]).countP isOverallRec = 0 ∧
    (generate_recommendations c6Scores "zzz" ["python"]).length = 7 := by
  have hws : weightedSum c6Scores = 58.15 := by norm_num [weightedSum, c6Scores]
  have hgen : genRecommendations c6Scores "zzz" ["python"] =
      [recCritContact, recCritKeywordsPre ++ "python", recHighKeywordsPre ++ "python",
       recHighDensityHigh, recMedSkills, recMedExperience, recLowFormatting,
       recLowEducation, recOverallSignificant] := by
    have hm : List.filter (fun k => ! isSubstr (pyLower k) (pyLower "zzz"))
        (List.take 8 ["python"]) = ["python"] := by decide
    have hm2 : List.take 6 (List.filter (fun k => ! isSubstr (pyLower k) (pyLower "zzz"))
        ["python"]) = ["python"] := by decide
    have p1 : c6Scores.keyword_match = 39 := rfl
    have p2 : c6Scores.keyword_density = 100 := rfl
    have p3 : c6Scores.personal_info = 59 := rfl
    have p4 : c6Scores.skills_alignment = 59 := rfl
    have p5 : c6Scores.experience_match = 59 := rfl
    have p6 : c6Scores.education_match = 69 := rfl
    have p7 : c6Scores.formatting = 69 := rfl
    simp only [genRecommendations, hws, hm, hm2, p1, p2, p3, p4, p5, p6, p7]
    norm_num
    decide
  constructor <;>
    · rw [show generate_recommendations c6Scores "zzz" ["python"] =
          (stableSortBy (fun y x => recPriorityKey y < recPriorityKey x)
            (genRecommendations c6Scores "zzz" ["python"])).take 7 from rfl, hgen]
      decide

/-! ## Claim C7 -/

theorem similarEntry_eq_some (ext : Ext) (rks : List String) (θ : ℚ) (jk : String)
    (p : String × List String) (h : similarEntry ext rks θ jk = some p) :
    p.1 = jk ∧
    p.2 = ((stableSortBy (fun y x => x.2 < y.2)
        (similarCandidates ext jk rks θ)).take 3).map (fun q => q.1) ∧
    stableSortBy (fun y x => x.2 < y.2) (similarCandidates ext jk rks θ) ≠ [] := by
  simp only [similarEntry] at h
  rcases hs : stableSortBy (fun y x => x.2 < y.2) (similarCandidates ext jk rks θ)
    with _ | ⟨q, qs⟩
  · rw [hs] at h
    cases h
  · rw [hs] at h
    have he := Option.some.inj h
    refine ⟨?_, ?_, by rw [hs]; simp⟩
    · rw [← he]
    · rw [← he, hs]

theorem mem_similarCandidates (ext : Ext) (jk : String) (rks : List String) (θ : ℚ)
    (q : String × ℚ) (h : q ∈ similarCandidates ext jk rks θ) :
    q.1 ∈ rks ∧ q.2 = calculate_keyword_similarity ext jk q.1 ∧ θ ≤ q.2 := by
  simp only [similarCandidates] at h
  rcases List.mem_filterMap.mp h with ⟨rkw, hr, hq⟩
  split_ifs at hq with hθ
  have he := Option.some.inj hq
  rw [← he]
  exact ⟨hr, rfl, hθ⟩

theorem similarCandidates_fst_sublist (ext : Ext) (jk : String) (θ : ℚ) :
    ∀ rks : List String,
      ((similarCandidates ext jk rks θ).map (fun q => q.1)).Sublist rks
  | [] => by simp [similarCandidates]
  | r :: rs => by
    simp only [similarCandidates, List.filterMap_cons]
    by_cases hθ : θ ≤ calculate_keyword_similarity ext jk r
    · rw [if_pos hθ]
      exact List.Sublist.cons₂ r (similarCandidates_fst_sublist ext jk θ rs)
    · rw [if_neg hθ]
      exact List.Sublist.cons r (similarCandidates_fst_sublist ext jk θ rs)

theorem lookup_filterMap_entry (ext : Ext) (rks : List String) (θ : ℚ) (jk : String)
    (l : List String) :
    ∀ L : List String,
      List.lookup jk (L.filterMap (similarEntry ext rks θ)) = some l →
      similarEntry ext rks θ jk = some (jk, l)
  | [], h => by simp at h
  | a :: as, h => by
    rw [List.filterMap_cons] at h
    rcases he : similarEntry ext rks θ a with _ | ⟨k, v⟩
    · rw [he] at h
      exact lookup_filterMap_entry ext rks θ jk l as h
    · rw [he] at h
      have hkey : k = a := (similarEntry_eq_some ext rks θ a (k, v) he).1
      rw [List.lookup_cons] at h
      rcases hbeq : jk == k with _ | _
      · rw [hbeq] at h
        exact lookup_filterMap_entry ext rks θ jk l as h
      · rw [hbeq] at h
        have hjk : jk = k := by simpa using hbeq
        have hv : v = l := Option.some.inj h
        rw [hjk, ← hv, hkey]
        rw [hkey] at he
        exact he

/-- Claim C7, confirmed: with the default threshold 0.7,
`find_similar_keywords` maps each job keyword that has at least one
candidate to a non-empty list of at most 3 résumé keywords, each with
similarity at or above the threshold, ordered by descending similarity;
within any one similarity value the returned keywords appear in
résumé-keyword insertion order (they form a sublist of `resume_keywords`,
by stability of the sort). -/
theorem findSimilar_topk (ext : Ext) (jks rks : List String) (jk : String)
    (l : List String)
    (h : List.lookup jk (find_similar_keywords ext jks rks 0.7) = some l) :
    l ≠ [] ∧ l.length ≤ 3 ∧
    (∀ kw ∈ l, 0.7 ≤ calculate_keyword_similarity ext jk kw) ∧
    l.Pairwise (fun a b =>
      calculate_keyword_similarity ext jk b ≤ calculate_keyword_similarity ext jk a) ∧
    (∀ q : ℚ, (l.filter
        (fun kw => calculate_keyword_similarity ext jk kw = q)).Sublist rks) := by
  have hent : similarEntry ext rks 0.7 jk = some (jk, l) :=
    lookup_filterMap_entry ext rks 0.7 jk l (pyDedup jks) h
  obtain ⟨-, hl0, hne⟩ := similarEntry_eq_some ext rks 0.7 jk (jk, l) hent
  have hl : l = ((stableSortBy (fun y x => x.2 < y.2)
      (similarCandidates ext jk rks 0.7)).take 3).map (fun q => q.1) := hl0
  have hmem : ∀ p : String × ℚ,
      p ∈ (stableSortBy (fun y x => x.2 < y.2)
        (similarCandidates ext jk rks 0.7)).take 3 →
      p.1 ∈ rks ∧ p.2 = calculate_keyword_similarity ext jk p.1 ∧ 0.7 ≤ p.2 := by
    intro p hp
    have hp1 := (List.take_sublist 3 _).subset hp
    have hp2 := (stableSortBy_perm (fun y x => x.2 < y.2)
      (similarCandidates ext jk rks 0.7)).mem_iff.mp hp1
    exact mem_similarCandidates ext jk rks 0.7 p hp2
  refine ⟨?_, ?_, ?_, ?_, ?_⟩
  · rcases hs : stableSortBy (fun y x => x.2 < y.2) (similarCandidates ext jk rks 0.7)
      with _ | ⟨p, ps⟩
    · exact absurd hs hne
    · rw [hl, hs]
      simp
  · rw [hl, List.length_map]
    exact List.length_take_le 3 _
  · intro kw hkw
    rw [hl] at hkw
    rcases List.mem_map.mp hkw with ⟨p, hp, hpe⟩
    obtain ⟨-, hsim, hθ⟩ := hmem p hp
    rw [← hpe, ← hsim]
    exact hθ
  · have hpw : (stableSortBy (fun y x => x.2 < y.2)
        (similarCandidates ext jk rks 0.7)).Pairwise
        (fun a b : String × ℚ => b.2 ≤ a.2) := by
      apply stableSortBy_pairwise
      · intro a b hr
        exact le_of_lt (by simpa using hr)
      · intro a b hr
        exact le_of_not_lt (by simpa using hr)
      · intro a b c hab hbc
        exact le_trans hbc hab
    have hpw3 := List.Pairwise.sublist (List.take_sublist 3 _) hpw
    rw [hl, List.pairwise_map]
    refine hpw3.imp_of_mem ?_
    intro a b ha hb hba
    obtain ⟨-, hsa, -⟩ := hmem a ha
    obtain ⟨-, hsb, -⟩ := hmem b hb
    rw [← hsa, ← hsb]
    exact hba
  · intro q
    rw [hl, List.filter_map]
    have hstep2 : (stableSortBy (fun y x => x.2 < y.2)
        (similarCandidates ext jk rks 0.7)).filter
        ((fun kw => calculate_keyword_similarity ext jk kw = q) ∘ (fun p => p.1)) =
        (similarCandidates ext jk rks 0.7).filter
        ((fun kw => calculate_keyword_similarity ext jk kw = q) ∘ (fun p => p.1)) := by
      apply filter_stableSortBy
      intro x hx y hy hpx hpy
      obtain ⟨-, hsx, -⟩ := mem_similarCandidates ext jk rks 0.7 x hx
      obtain ⟨-, hsy, -⟩ := mem_similarCandidates ext jk rks 0.7 y hy
      have hx' : x.2 = q := by rw [hsx]; simpa using hpx
      have hy' : y.2 = q := by rw [hsy]; simpa using hpy
      simp [hx', hy']
    refine List.Sublist.trans (List.Sublist.map _ (List.Sublist.filter _ (List.take_sublist 3 _))) ?_
    rw [hstep2]
    refine List.Sublist.trans (List.Sublist.map _ (List.filter_sublist _)) ?_
    exact similarCandidates_fst_sublist ext jk 0.7 rks

/-- Witness for the C7 theorem at a concrete input. -/
theorem findSimilar_topk_witness :
    List.lookup "python" (find_similar_keywords extTriv ["python"] ["python"] 0.7) =
      some ["python"] ∧
    (["python"] : List String) ≠ [] ∧
    (["python"] : List String).length ≤ 3 ∧
    (∀ kw ∈ (["python"] : List String),
      0.7 ≤ calculate_keyword_similarity extTriv "python" kw) ∧
    (["python"] : List String).Pairwise (fun a b =>
      calculate_keyword_similarity extTriv "python" b ≤
        calculate_keyword_similarity extTriv "python" a) ∧
    (∀ q : ℚ, ((["python"] : List String).filter
        (fun kw => calculate_keyword_similarity extTriv "python" kw = q)).Sublist
        ["python"]) := by
  have hsim : calculate_keyword_similarity extTriv "python" "python" = 1 := by
    simp [calculate_keyword_similarity]
  have hc : similarCandidates extTriv "python" ["python"] 0.7 = [("python", 1)] := by
    simp only [similarCandidates, List.filterMap_cons, List.filterMap_nil, hsim]
    norm_num
  have hsort : stableSortBy (fun y x => x.2 < y.2) [(("python" : String), (1 : ℚ))] =
      [("python", 1)] := by
    simp [stableSortBy, sInsert]
  have hent : similarEntry extTriv ["python"] 0.7 "python" = some ("python", ["python"]) := by
    simp only [similarEntry, hc, hsort]
    simp
  have hd : pyDedup (["python"] : List String) = ["python"] := by decide
  have hlook : List.lookup "python" (find_similar_keywords extTriv ["python"] ["python"] 0.7) =
      some ["python"] := by
    simp only [find_similar_keywords, hd, List.filterMap_cons, List.filterMap_nil, hent]
    decide
  have h := findSimilar_topk extTriv ["python"] ["python"] "python" ["python"] hlook
  exact ⟨hlook, h.1, h.2.1, h.2.2.1, h.2.2.2.1, h.2.2.2.2⟩

end ResumeMatchAI
